import Mathlib

/-
Verification development for the QC repository core: the rule evaluation
engine (packages qc-engine, source part_014 and shared types.ts), the
result mapper and aggregator (qcResultMapping / processQcRun, source
part_005 and part_006/part_012), the transcript segmentation heuristic
(qcChatSplit, compiled form in apps/functions/lib/lib/firebaseAdmin.js),
and the run orchestrator persistence protocol (processQcRun, part_005).

Modelling conventions:
- JavaScript numbers are modelled by the rationals; every score and weight
  handled by the engine is a rational in [0,1], and no claim depends on
  floating-point rounding.
- String lengths are measured in characters; all concrete inputs used by
  the claims are ASCII, where this agrees with the JavaScript UTF-16
  `length`.
- Host functionality whose semantics lives outside this repository
  (JavaScript RegExp, Date.parse, Number() and String() coercions) is
  passed to the engine as an explicit `JsEnv` record of deterministic
  functions, mirroring the fact that those calls are pure and
  deterministic for fixed inputs; theorems quantify over the environment.
- TypeScript `throw` inside rule evaluators is modelled with
  `Except String`, and the `try/catch` in `evaluateRule` is the handler
  that converts a thrown message into an ERROR outcome.
-/

namespace QC

/-- JSON-like runtime values, modelling the JavaScript data the engine can
see: record fields, table rows, and evidence metadata. -/
inductive JsonValue where
  | null : JsonValue
  | bool (b : Bool) : JsonValue
  | num (q : ℚ) : JsonValue
  | str (s : String) : JsonValue
  | arr (elems : List JsonValue) : JsonValue
  | obj (fields : List (String × JsonValue)) : JsonValue
deriving Repr

/-- Character class of the JavaScript whitespace set used by `\s`,
`String.prototype.trim` and `trimEnd`. -/
def isJsWs (c : Char) : Bool :=
  c.val == 32 || c.val == 9 || c.val == 10 || c.val == 11 || c.val == 12 || c.val == 13 ||
  c.val == 0xa0 || c.val == 0x1680 || (0x2000 ≤ c.val && c.val ≤ 0x200a) || c.val == 0x2028 ||
  c.val == 0x2029 || c.val == 0x202f || c.val == 0x205f || c.val == 0x3000 || c.val == 0xfeff

/-- Drop leading JavaScript whitespace from a character list. -/
def dropLeadingWs (cs : List Char) : List Char := cs.dropWhile isJsWs

/-- Drop trailing JavaScript whitespace from a character list. -/
def dropTrailingWs (cs : List Char) : List Char := (cs.reverse.dropWhile isJsWs).reverse

/-- JavaScript `String.prototype.trim`. -/
def jsTrim (s : String) : String := ⟨dropTrailingWs (dropLeadingWs s.data)⟩

/-- JavaScript `String.prototype.trimEnd`. -/
def jsTrimEnd (s : String) : String := ⟨dropTrailingWs s.data⟩

/-- JavaScript `String.prototype.toLowerCase`, restricted to the simple
per-character case mapping (all concrete inputs in this development are
ASCII, where this is exact). -/
def jsToLower (s : String) : String := ⟨s.data.map Char.toLower⟩

/-- JavaScript `String.prototype.toUpperCase`, same restriction as
`jsToLower`. -/
def jsToUpper (s : String) : String := ⟨s.data.map Char.toUpper⟩

/-- Check that the first list is a prefix of the second. -/
def charsHavePrefix : List Char → List Char → Bool
  | [], _ => true
  | _ :: _, [] => false
  | a :: as, b :: bs => a == b && charsHavePrefix as bs

/-- Check that `needle` occurs as a contiguous run inside the second list;
this is JavaScript `String.prototype.includes` on character lists. -/
def charsContain (needle : List Char) : List Char → Bool
  | [] => needle.isEmpty
  | c :: t => charsHavePrefix needle (c :: t) || charsContain needle t

/-- JavaScript `haystack.includes(needle)`. -/
def strIncludes (hay needle : String) : Bool := charsContain needle.data hay.data

/-- Rule severities (`QcSeveritySchema`). -/
inductive QcSeverity where
  | BLOCKER | MAJOR | MINOR | INFO
deriving Repr, DecidableEq

/-- Per-rule outcomes (`RuleOutcomeSchema`). -/
inductive RuleOutcome where
  | PASS | FAIL | SKIP | ERROR
deriving Repr, DecidableEq

/-- Run-level outcomes (`QcRunSummarySchema.overallOutcome`). -/
inductive OverallOutcome where
  | PASS | FAIL
deriving Repr, DecidableEq

/-- The closed set of rule types (`QcRuleTypeSchema`). -/
inductive QcRuleType where
  | TEXT_REGEX
  | TEXT_KEYWORD_BLACKLIST
  | TEXT_REQUIRED_PHRASE
  | NUMERIC_RANGE
  | REQUIRED_FIELD
  | EXCEL_ALL_CAPS
  | EXCEL_REQUIRED_COLUMNS
  | AUDIO_DURATION_LIMIT
  | SLA_TIME_DIFFERENCE
  | TONE_CLASSIFICATION
  | IMPLIED_ABUSE_DETECTION
deriving Repr, DecidableEq

/-- Discriminator for the four variants of `QcNormalizedInput`. -/
inductive InputKind where
  | text | record | table | audio
deriving Repr, DecidableEq

/-- The engine's normalized input (`QcNormalizedInputSchema`): a tagged
union of text, record, table and audio. -/
inductive QcNormalizedInput where
  | text (text : String) (locale : Option String := none)
  | record (record : List (String × JsonValue))
  | table (columns : List String) (rows : List JsonValue)
  | audio (durationMs : Nat) (format : Option String := none)
deriving Repr

/-- The `kind` discriminator field of a normalized input. -/
def QcNormalizedInput.kind : QcNormalizedInput → InputKind
  | .text _ _ => .text
  | .record _ => .record
  | .table _ _ => .table
  | .audio _ _ => .audio

/-- Evidence entries (`EvidenceSchema`): type, message, optional path and
optional metadata. -/
structure Evidence where
  type : String
  message : String
  path : Option (List String) := none
  meta : Option (List (String × JsonValue)) := none
deriving Repr

/-- Parameters of TEXT_REGEX rules (`TextRegexParamsSchema`). -/
structure TextRegexParams where
  fieldPath : Option (List String) := none
  pattern : String
  flags : Option String := none
  mustMatch : Bool := true
deriving Repr, DecidableEq

/-- Parameters of TEXT_KEYWORD_BLACKLIST rules. -/
structure TextKeywordBlacklistParams where
  fieldPath : Option (List String) := none
  keywords : List String
  caseSensitive : Bool := false
deriving Repr, DecidableEq

/-- Parameters of TEXT_REQUIRED_PHRASE rules. -/
structure TextRequiredPhraseParams where
  fieldPath : Option (List String) := none
  phrase : String
  caseSensitive : Bool := false
deriving Repr, DecidableEq

/-- Parameters of NUMERIC_RANGE rules. -/
structure NumericRangeParams where
  fieldPath : List String
  min : Option ℚ := none
  max : Option ℚ := none
  inclusiveMin : Bool := true
  inclusiveMax : Bool := true
deriving Repr, DecidableEq

/-- Parameters of REQUIRED_FIELD rules. -/
structure RequiredFieldParams where
  fieldPath : List String
  allowEmptyString : Bool := false
deriving Repr, DecidableEq

/-- Parameters of EXCEL_ALL_CAPS rules. -/
structure ExcelAllCapsParams where
  column : String
  minCapsRatio : ℚ := 1
deriving Repr, DecidableEq

/-- Parameters of EXCEL_REQUIRED_COLUMNS rules. -/
structure ExcelRequiredColumnsParams where
  requiredColumns : List String
  caseSensitive : Bool := false
deriving Repr, DecidableEq

/-- Parameters of AUDIO_DURATION_LIMIT rules. -/
structure AudioDurationLimitParams where
  maxDurationMs : Nat
deriving Repr, DecidableEq

/-- Parameters of SLA_TIME_DIFFERENCE rules. -/
structure SlaTimeDifferenceParams where
  startFieldPath : List String
  endFieldPath : List String
  maxDifferenceMs : Nat
deriving Repr, DecidableEq

/-- Parameters of TONE_CLASSIFICATION rules. -/
structure ToneClassificationParams where
  threshold : ℚ
  failLabels : List String
deriving Repr, DecidableEq

/-- Parameters of IMPLIED_ABUSE_DETECTION rules. -/
structure ImpliedAbuseDetectionParams where
  threshold : ℚ
deriving Repr, DecidableEq

/-- Variant payload of a rule definition; the discriminated union of
`QcRuleDefinitionSchema`, one constructor per rule type. -/
inductive QcRuleParams where
  | textRegex (params : TextRegexParams)
  | textKeywordBlacklist (params : TextKeywordBlacklistParams)
  | textRequiredPhrase (params : TextRequiredPhraseParams)
  | numericRange (params : NumericRangeParams)
  | requiredField (params : RequiredFieldParams)
  | excelAllCaps (params : ExcelAllCapsParams)
  | excelRequiredColumns (params : ExcelRequiredColumnsParams)
  | audioDurationLimit (params : AudioDurationLimitParams)
  | slaTimeDifference (params : SlaTimeDifferenceParams)
  | toneClassification (params : ToneClassificationParams)
  | impliedAbuseDetection (params : ImpliedAbuseDetectionParams)
deriving Repr, DecidableEq

/-- Rule definitions (`QcRuleDefinitionSchema`): common metadata plus the
per-type parameter payload. -/
structure QcRuleDefinition where
  ruleId : String
  version : Nat
  enabled : Bool := true
  severity : QcSeverity := .MAJOR
  weight : ℚ := 1
  name : String
  description : Option String := none
  tags : List String := []
  params : QcRuleParams
deriving Repr, DecidableEq

/-- The `type` discriminator of a rule definition, recovered from its
payload constructor. -/
def QcRuleDefinition.type (r : QcRuleDefinition) : QcRuleType :=
  match r.params with
  | .textRegex _ => .TEXT_REGEX
  | .textKeywordBlacklist _ => .TEXT_KEYWORD_BLACKLIST
  | .textRequiredPhrase _ => .TEXT_REQUIRED_PHRASE
  | .numericRange _ => .NUMERIC_RANGE
  | .requiredField _ => .REQUIRED_FIELD
  | .excelAllCaps _ => .EXCEL_ALL_CAPS
  | .excelRequiredColumns _ => .EXCEL_REQUIRED_COLUMNS
  | .audioDurationLimit _ => .AUDIO_DURATION_LIMIT
  | .slaTimeDifference _ => .SLA_TIME_DIFFERENCE
  | .toneClassification _ => .TONE_CLASSIFICATION
  | .impliedAbuseDetection _ => .IMPLIED_ABUSE_DETECTION

/-- AI-provided confidence signal (`QcAiSignalSchema`). -/
structure QcAiSignal where
  ruleType : QcRuleType
  confidence : ℚ
  label : Option String := none
  evidence : List Evidence := []
  provider : Option String := none
  model : Option String := none
  evaluatedAt : Option String := none
deriving Repr

/-- Bundle of optional AI signals (`QcAiSignalsSchema`). -/
structure QcAiSignals where
  tone : Option QcAiSignal := none
  impliedAbuse : Option QcAiSignal := none
deriving Repr

/-- Customer-safe error object carried by ERROR rule results. -/
structure QcRuleError where
  code : String
  message : String
deriving Repr, DecidableEq

/-- Per-rule verdict (`QcRuleResultSchema`). -/
structure QcRuleResult where
  ruleId : String
  version : Nat
  type : QcRuleType
  severity : QcSeverity
  weight : ℚ
  outcome : RuleOutcome
  score : ℚ
  evidence : List Evidence
  error : Option QcRuleError := none
deriving Repr

/-- Run-level summary (`QcRunSummarySchema`). -/
structure QcRunSummary where
  engineVersion : String
  executedAt : String
  overallOutcome : OverallOutcome
  overallScore : ℚ
  failedRuleIds : List String
deriving Repr

/-- Full engine output (`QcRunResultSchema`). -/
structure QcRunResult where
  summary : QcRunSummary
  ruleResults : List QcRuleResult
deriving Repr

/-- Execution options (`QcExecutionOptions`); both fields optional with
engine-side defaults. -/
structure QcExecutionOptions where
  passScoreThreshold : Option ℚ := none
  blockerFailureForcesFail : Option Bool := none
deriving Repr, DecidableEq

/-- Execution context handed to each evaluator (`QcExecutionContext`). -/
structure QcExecutionContext where
  input : QcNormalizedInput
  aiSignals : Option QcAiSignals := none
  executedAtIso : String
deriving Repr

/-- Deterministic host-environment functions the engine calls into but
whose semantics live outside this repository: compiled RegExp testing
(`new RegExp(pattern, flags)` can throw, so compilation is fallible),
`Date.parse` (none models NaN), `Number()` coercion for non-number values
(none models NaN) and `String()` coercion. -/
structure JsEnv where
  regExpCompile : String → String → Except String (String → Bool)
  dateParse : String → Option ℚ
  jsToNumber : JsonValue → Option ℚ
  jsToString : JsonValue → String

/-- Engine version constant (`QC_ENGINE_VERSION`). -/
def QC_ENGINE_VERSION : String := "0.1.0"

/-- Engine-level configuration error (`QcRuleValidationError`). -/
inductive QcEngineError where
  | ruleValidationError (message : String)
deriving Repr, DecidableEq

/-- JavaScript property access `cursor[key]` for one step of
`getValueAtPath`: object field lookup, or canonical numeric index into an
array; anything else yields undefined. -/
def jsIndex (v : JsonValue) (key : String) : Option JsonValue :=
  match v with
  | .obj fields => (fields.find? (fun kv => kv.1 == key)).map (·.2)
  | .arr elems =>
    match key.toNat? with
    | some i => if toString i == key then elems.get? i else none
    | none => none
  | _ => none

/-- Source `getValueAtPath`: walk a key path, returning undefined (`none`)
when the cursor is null/undefined or not an object before the path ends. -/
def getValueAtPath : JsonValue → List String → Option JsonValue
  | v, [] => some v
  | .null, _ :: _ => none
  | v, k :: ks =>
    match jsIndex v k with
    | some v' => getValueAtPath v' ks
    | none => none

/-- Source `asTextFromInput`: text inputs yield their text; record inputs
with a nonempty field path yield the string at that path, coercing
non-null non-string values via `String()`. -/
def asTextFromInput (env : JsEnv) (input : QcNormalizedInput)
    (fieldPath : Option (List String)) : Option String :=
  match input with
  | .text t _ => some t
  | .record record =>
    match fieldPath with
    | some fp =>
      if fp.length ≠ 0 then
        match getValueAtPath (.obj record) fp with
        | some (.str s) => some s
        | some .null => none
        | none => none
        | some v => some (env.jsToString v)
      else none
    | none => none
  | _ => none

/-- Source `normalizeCase`. -/
def normalizeCase (text : String) (caseSensitive : Bool) : String :=
  if caseSensitive then text else jsToLower text

/-- Source `resultBase`: the fields every rule result copies from its
rule. -/
def resultBase (rule : QcRuleDefinition) (outcome : RuleOutcome) (score : ℚ)
    (evidence : List Evidence) (error : Option QcRuleError := none) : QcRuleResult :=
  { ruleId := rule.ruleId
    version := rule.version
    type := rule.type
    severity := rule.severity
    weight := rule.weight
    outcome := outcome
    score := score
    evidence := evidence
    error := error }

/-- Source `pass` result constructor: outcome PASS, score 1. -/
def pass (rule : QcRuleDefinition) (evidence : List Evidence := []) : QcRuleResult :=
  resultBase rule .PASS 1 evidence

/-- Source `fail` result constructor: outcome FAIL, score 0. -/
def fail (rule : QcRuleDefinition) (evidence : List Evidence := []) : QcRuleResult :=
  resultBase rule .FAIL 0 evidence

/-- Source `skip` result constructor: outcome SKIP, score 1, with a
SKIP_REASON evidence entry. -/
def skip (rule : QcRuleDefinition) (reason : String) : QcRuleResult :=
  resultBase rule .SKIP 1 [{ type := "SKIP_REASON", message := reason }]

/-- Source `errorResult` constructor: outcome ERROR, score 0, with a
customer-safe error object instead of a raw exception. -/
def errorResult (rule : QcRuleDefinition) (message : String)
    (evidence : List Evidence := []) : QcRuleResult :=
  resultBase rule .ERROR 0 evidence (some { code := "RULE_EVALUATION_ERROR", message := message })

/-- Single-quote character, used to rebuild the source's quoted error
messages. -/
def sq : String := ⟨[Char.ofNat 39]⟩

/-- Printed name of an input kind, as interpolated into the `assertKind`
message. -/
def kindName : InputKind → String
  | .text => "text"
  | .record => "record"
  | .table => "table"
  | .audio => "audio"

/-- Printed name of a rule type, as interpolated into the `assertKind`
message. -/
def ruleTypeName : QcRuleType → String
  | .TEXT_REGEX => "TEXT_REGEX"
  | .TEXT_KEYWORD_BLACKLIST => "TEXT_KEYWORD_BLACKLIST"
  | .TEXT_REQUIRED_PHRASE => "TEXT_REQUIRED_PHRASE"
  | .NUMERIC_RANGE => "NUMERIC_RANGE"
  | .REQUIRED_FIELD => "REQUIRED_FIELD"
  | .EXCEL_ALL_CAPS => "EXCEL_ALL_CAPS"
  | .EXCEL_REQUIRED_COLUMNS => "EXCEL_REQUIRED_COLUMNS"
  | .AUDIO_DURATION_LIMIT => "AUDIO_DURATION_LIMIT"
  | .SLA_TIME_DIFFERENCE => "SLA_TIME_DIFFERENCE"
  | .TONE_CLASSIFICATION => "TONE_CLASSIFICATION"
  | .IMPLIED_ABUSE_DETECTION => "IMPLIED_ABUSE_DETECTION"

/-- The message thrown by source `assertKind` on an input-kind mismatch. -/
def kindMismatchMessage (rule : QcRuleDefinition) (expected actual : InputKind) : String :=
  "Rule " ++ rule.ruleId ++ " (" ++ ruleTypeName rule.type ++ ") expects input kind " ++
    sq ++ kindName expected ++ sq ++ ", got " ++ sq ++ kindName actual ++ sq ++ "."

/-- Source `assertKind` specialised to record inputs: returns the record
or throws the kind-mismatch message. -/
def assertRecord (input : QcNormalizedInput) (rule : QcRuleDefinition) :
    Except String (List (String × JsonValue)) :=
  match input with
  | .record r => .ok r
  | _ => .error (kindMismatchMessage rule .record input.kind)

/-- Source `assertKind` specialised to table inputs. -/
def assertTable (input : QcNormalizedInput) (rule : QcRuleDefinition) :
    Except String (List String × List JsonValue) :=
  match input with
  | .table columns rows => .ok (columns, rows)
  | _ => .error (kindMismatchMessage rule .table input.kind)

/-- Source `assertKind` specialised to audio inputs. -/
def assertAudio (input : QcNormalizedInput) (rule : QcRuleDefinition) :
    Except String Nat :=
  match input with
  | .audio durationMs _ => .ok durationMs
  | _ => .error (kindMismatchMessage rule .audio input.kind)

/-- Metadata entry for an optional numeric bound; an undefined bound is
omitted from the recorded metadata. -/
def optNumEntry (key : String) : Option ℚ → List (String × JsonValue)
  | some q => [(key, .num q)]
  | none => []

/-- Metadata entry for an optional JSON value (undefined omitted). -/
def optJsonEntry (key : String) : Option JsonValue → List (String × JsonValue)
  | some v => [(key, v)]
  | none => []

/-- Source `evalTextRegex`. -/
def evalTextRegex (env : JsEnv) (rule : QcRuleDefinition) (params : TextRegexParams)
    (input : QcNormalizedInput) : Except String QcRuleResult :=
  match asTextFromInput env input params.fieldPath with
  | none => .ok (skip rule "No text available for evaluation")
  | some text =>
    let flags := params.flags.getD ""
    match env.regExpCompile params.pattern flags with
    | .error m => .error m
    | .ok test =>
      let matched := test text
      let evidence : List Evidence :=
        [{ type := "TEXT_REGEX"
           message := if matched then "Regex matched" else "Regex did not match"
           meta := some [("pattern", .str params.pattern), ("flags", .str flags)] }]
      let shouldPass := if params.mustMatch then matched else !matched
      .ok (if shouldPass then pass rule evidence else fail rule evidence)

/-- Source `evalTextKeywordBlacklist`. -/
def evalTextKeywordBlacklist (env : JsEnv) (rule : QcRuleDefinition)
    (params : TextKeywordBlacklistParams) (input : QcNormalizedInput) :
    Except String QcRuleResult :=
  match asTextFromInput env input params.fieldPath with
  | none => .ok (skip rule "No text available for evaluation")
  | some text =>
    let haystack := normalizeCase text params.caseSensitive
    let found := params.keywords.filter (fun keyword =>
      let needle := normalizeCase keyword params.caseSensitive
      needle.length > 0 && strIncludes haystack needle)
    if found.length = 0 then
      .ok (pass rule [{ type := "TEXT_KEYWORD_BLACKLIST", message := "No blacklisted keywords found" }])
    else
      .ok (fail rule
        [{ type := "TEXT_KEYWORD_BLACKLIST"
           message := "Blacklisted keywords detected"
           meta := some [("found", .arr (found.map .str))] }])

/-- Source `evalTextRequiredPhrase`. -/
def evalTextRequiredPhrase (env : JsEnv) (rule : QcRuleDefinition)
    (params : TextRequiredPhraseParams) (input : QcNormalizedInput) :
    Except String QcRuleResult :=
  match asTextFromInput env input params.fieldPath with
  | none => .ok (skip rule "No text available for evaluation")
  | some text =>
    let haystack := normalizeCase text params.caseSensitive
    let needle := normalizeCase params.phrase params.caseSensitive
    let ok := needle.length > 0 && strIncludes haystack needle
    if ok then
      .ok (pass rule [{ type := "TEXT_REQUIRED_PHRASE", message := "Required phrase present" }])
    else
      .ok (fail rule
        [{ type := "TEXT_REQUIRED_PHRASE"
           message := "Required phrase missing"
           meta := some [("phrase", .str params.phrase)] }])

/-- Source `evalNumericRange`. -/
def evalNumericRange (env : JsEnv) (rule : QcRuleDefinition) (params : NumericRangeParams)
    (input : QcNormalizedInput) : Except String QcRuleResult := do
  let record ← assertRecord input rule
  match getValueAtPath (.obj record) params.fieldPath with
  | none =>
    .ok (fail rule [{ type := "NUMERIC_RANGE", message := "Numeric value missing", path := some params.fieldPath }])
  | some .null =>
    .ok (fail rule [{ type := "NUMERIC_RANGE", message := "Numeric value missing", path := some params.fieldPath }])
  | some v =>
    let numeric? : Option ℚ :=
      match v with
      | .num q => some q
      | _ => env.jsToNumber v
    match numeric? with
    | none =>
      .ok (fail rule
        [{ type := "NUMERIC_RANGE"
           message := "Value is not numeric"
           path := some params.fieldPath
           meta := some [("value", v)] }])
    | some numeric =>
      let minOk : Bool :=
        match params.min with
        | none => true
        | some mn => if params.inclusiveMin then decide (numeric ≥ mn) else decide (numeric > mn)
      let maxOk : Bool :=
        match params.max with
        | none => true
        | some mx => if params.inclusiveMax then decide (numeric ≤ mx) else decide (numeric < mx)
      let ok := minOk && maxOk
      let meta := some ([("numeric", JsonValue.num numeric)] ++ optNumEntry "min" params.min ++ optNumEntry "max" params.max)
      let evidence : List Evidence :=
        [{ type := "NUMERIC_RANGE"
           message := if ok then "Value within range" else "Value out of range"
           path := some params.fieldPath
           meta := meta }]
      .ok (if ok then pass rule evidence else fail rule evidence)

/-- Source `evalRequiredField`. -/
def evalRequiredField (rule : QcRuleDefinition) (params : RequiredFieldParams)
    (input : QcNormalizedInput) : Except String QcRuleResult := do
  let record ← assertRecord input rule
  match getValueAtPath (.obj record) params.fieldPath with
  | none =>
    .ok (fail rule [{ type := "REQUIRED_FIELD", message := "Field missing", path := some params.fieldPath }])
  | some .null =>
    .ok (fail rule [{ type := "REQUIRED_FIELD", message := "Field missing", path := some params.fieldPath }])
  | some v =>
    match v with
    | .str s =>
      if s.length = 0 && !params.allowEmptyString then
        .ok (fail rule [{ type := "REQUIRED_FIELD", message := "Field empty string not allowed", path := some params.fieldPath }])
      else
        .ok (pass rule [{ type := "REQUIRED_FIELD", message := "Field present", path := some params.fieldPath }])
    | _ =>
      .ok (pass rule [{ type := "REQUIRED_FIELD", message := "Field present", path := some params.fieldPath }])

/-- First index of an element in a list (JavaScript `indexOf`, with `none`
for -1). -/
def listIndexOf (l : List String) (x : String) : Option Nat :=
  match l with
  | [] => none
  | a :: t => if a == x then some 0 else (listIndexOf t x).map (· + 1)

/-- Source `evalExcelRequiredColumns`. -/
def evalExcelRequiredColumns (rule : QcRuleDefinition) (params : ExcelRequiredColumnsParams)
    (input : QcNormalizedInput) : Except String QcRuleResult := do
  let (columns0, _rows) ← assertTable input rule
  let columns := if params.caseSensitive then columns0 else columns0.map jsToLower
  let required := if params.caseSensitive then params.requiredColumns else params.requiredColumns.map jsToLower
  let missing := (params.requiredColumns.zip required).filterMap
    (fun p => if columns.contains p.2 then none else some p.1)
  if missing.length = 0 then
    .ok (pass rule [{ type := "EXCEL_REQUIRED_COLUMNS", message := "All required columns present" }])
  else
    .ok (fail rule
      [{ type := "EXCEL_REQUIRED_COLUMNS"
         message := "Missing required columns"
         meta := some [("missing", .arr (missing.map .str))] }])

/-- Source `evalExcelAllCaps`. -/
def evalExcelAllCaps (rule : QcRuleDefinition) (params : ExcelAllCapsParams)
    (input : QcNormalizedInput) : Except String QcRuleResult := do
  let (columns, rows) ← assertTable input rule
  match listIndexOf columns params.column with
  | none =>
    .ok (fail rule
      [{ type := "EXCEL_ALL_CAPS"
         message := "Column not found"
         meta := some [("column", .str params.column)] }])
  | some colIndex =>
    let cells := rows.filterMap (fun row =>
      let cell? : Option JsonValue :=
        match row with
        | .arr xs => xs.get? colIndex
        | .obj fields => (fields.find? (fun kv => kv.1 == params.column)).map (·.2)
        | _ => none
      match cell? with
      | some (.str s) =>
        let trimmed := jsTrim s
        if trimmed.length = 0 then none else some trimmed
      | _ => none)
    let total := cells.length
    let caps := (cells.filter (fun t => t == jsToUpper t)).length
    if total = 0 then
      .ok (skip rule "No string cells to evaluate")
    else
      let ratio : ℚ := (caps : ℚ) / (total : ℚ)
      let ok := decide (ratio ≥ params.minCapsRatio)
      let evidence : List Evidence :=
        [{ type := "EXCEL_ALL_CAPS"
           message := if ok then "All-caps ratio meets threshold" else "All-caps ratio below threshold"
           meta := some [("column", .str params.column), ("ratio", .num ratio),
                         ("total", .num total), ("caps", .num caps),
                         ("minCapsRatio", .num params.minCapsRatio)] }]
      .ok (if ok then pass rule evidence else fail rule evidence)

/-- Source `evalAudioDurationLimit`. -/
def evalAudioDurationLimit (rule : QcRuleDefinition) (params : AudioDurationLimitParams)
    (input : QcNormalizedInput) : Except String QcRuleResult := do
  let durationMs ← assertAudio input rule
  let ok := decide (durationMs ≤ params.maxDurationMs)
  if ok then
    .ok (pass rule
      [{ type := "AUDIO_DURATION_LIMIT"
         message := "Audio duration within limit"
         meta := some [("durationMs", .num durationMs)] }])
  else
    .ok (fail rule
      [{ type := "AUDIO_DURATION_LIMIT"
         message := "Audio duration exceeds limit"
         meta := some [("durationMs", .num durationMs), ("maxDurationMs", .num params.maxDurationMs)] }])

/-- Source `parseDateOrMillis`: finite numbers pass through, strings go
through `Date.parse` (none models NaN), everything else is undefined.
Records arriving through JSON normalization never contain `Date`
instances, so the `instanceof Date` arm has no counterpart here. -/
def parseDateOrMillis (env : JsEnv) : Option JsonValue → Option ℚ
  | none => none
  | some .null => none
  | some (.num q) => some q
  | some (.str s) => env.dateParse s
  | some _ => none

/-- Source `evalSlaTimeDifference`. -/
def evalSlaTimeDifference (env : JsEnv) (rule : QcRuleDefinition)
    (params : SlaTimeDifferenceParams) (input : QcNormalizedInput) :
    Except String QcRuleResult := do
  let record ← assertRecord input rule
  let startValue := getValueAtPath (.obj record) params.startFieldPath
  let endValue := getValueAtPath (.obj record) params.endFieldPath
  match parseDateOrMillis env startValue, parseDateOrMillis env endValue with
  | some startMs, some endMs =>
    let diff := |endMs - startMs|
    let ok := decide (diff ≤ (params.maxDifferenceMs : ℚ))
    if ok then
      .ok (pass rule
        [{ type := "SLA_TIME_DIFFERENCE"
           message := "SLA time difference within limit"
           meta := some [("diffMs", .num diff)] }])
    else
      .ok (fail rule
        [{ type := "SLA_TIME_DIFFERENCE"
           message := "SLA time difference exceeds limit"
           meta := some [("diffMs", .num diff), ("maxDifferenceMs", .num params.maxDifferenceMs)] }])
  | _, _ =>
    .ok (fail rule
      [{ type := "SLA_TIME_DIFFERENCE"
         message := "Start or end timestamp missing/unparseable"
         meta := some (optJsonEntry "startValue" (getValueAtPath (.obj record) params.startFieldPath) ++
                       optJsonEntry "endValue" (getValueAtPath (.obj record) params.endFieldPath)) }])

/-- Source `evalToneClassification`: applies the threshold/label test to
an externally supplied confidence signal; absence of the signal skips. -/
def evalToneClassification (rule : QcRuleDefinition) (params : ToneClassificationParams)
    (aiSignals : Option QcAiSignals) : Except String QcRuleResult :=
  match aiSignals.bind (·.tone) with
  | none => .ok (skip rule "No AI tone signal available")
  | some signal =>
    let meetsConfidence := decide (signal.confidence ≥ params.threshold)
    let labelIsFail :=
      match signal.label with
      | some l => if l.length = 0 then false else params.failLabels.contains l
      | none => false
    let ok := !(meetsConfidence && labelIsFail)
    let evidence : List Evidence :=
      [{ type := "TONE_CLASSIFICATION"
         message := if ok then "Tone did not trigger failure thresholds" else "Tone triggered failure thresholds"
         meta := some (optJsonEntry "label" (signal.label.map .str) ++
                       [("confidence", .num signal.confidence), ("threshold", .num params.threshold),
                        ("failLabels", .arr (params.failLabels.map .str))]) }] ++ signal.evidence
    .ok (if ok then pass rule evidence else fail rule evidence)

/-- Source `evalImpliedAbuseDetection`. -/
def evalImpliedAbuseDetection (rule : QcRuleDefinition) (params : ImpliedAbuseDetectionParams)
    (aiSignals : Option QcAiSignals) : Except String QcRuleResult :=
  match aiSignals.bind (·.impliedAbuse) with
  | none => .ok (skip rule "No AI implied-abuse signal available")
  | some signal =>
    let ok := decide (signal.confidence < params.threshold)
    let evidence : List Evidence :=
      [{ type := "IMPLIED_ABUSE_DETECTION"
         message := if ok then "Implied abuse confidence below threshold" else "Implied abuse confidence above threshold"
         meta := some [("confidence", .num signal.confidence), ("threshold", .num params.threshold)] }] ++ signal.evidence
    .ok (if ok then pass rule evidence else fail rule evidence)

/-- Dispatch of `evaluateRule` by rule type; the union is closed, so the
source's unreachable default arm has no counterpart. -/
def evaluateRuleDispatch (env : JsEnv) (ctx : QcExecutionContext)
    (rule : QcRuleDefinition) : Except String QcRuleResult :=
  match rule.params with
  | .textRegex p => evalTextRegex env rule p ctx.input
  | .textKeywordBlacklist p => evalTextKeywordBlacklist env rule p ctx.input
  | .textRequiredPhrase p => evalTextRequiredPhrase env rule p ctx.input
  | .numericRange p => evalNumericRange env rule p ctx.input
  | .requiredField p => evalRequiredField rule p ctx.input
  | .excelRequiredColumns p => evalExcelRequiredColumns rule p ctx.input
  | .excelAllCaps p => evalExcelAllCaps rule p ctx.input
  | .audioDurationLimit p => evalAudioDurationLimit rule p ctx.input
  | .slaTimeDifference p => evalSlaTimeDifference env rule p ctx.input
  | .toneClassification p => evalToneClassification rule p ctx.aiSignals
  | .impliedAbuseDetection p => evalImpliedAbuseDetection rule p ctx.aiSignals

/-- Source `evaluateRule`: disabled rules SKIP before the try block; a
thrown message is caught and converted to an ERROR result. -/
def evaluateRule (env : JsEnv) (ctx : QcExecutionContext) (rule : QcRuleDefinition) :
    QcRuleResult :=
  if !rule.enabled then skip rule "Rule disabled"
  else
    match evaluateRuleDispatch env ctx rule with
    | .ok r => r
    | .error message => errorResult rule message

/-- Engine request shape (`RunQcRequest`). -/
structure RunQcRequest where
  input : QcNormalizedInput
  rules : List QcRuleDefinition
  executedAtIso : String
  aiSignals : Option QcAiSignals := none
  options : Option QcExecutionOptions := none
deriving Repr

/-- Execution context built by `runQc` from the request. -/
def runQcContext (request : RunQcRequest) : QcExecutionContext :=
  { input := request.input, executedAtIso := request.executedAtIso, aiSignals := request.aiSignals }

/-- The per-rule results computed by `runQc`: every rule evaluated in
input order. -/
def runQcResults (env : JsEnv) (request : RunQcRequest) : List QcRuleResult :=
  request.rules.map (evaluateRule env (runQcContext request))

/-- The source's `enabledResults` local: results with outcome other than
SKIP. -/
def enabledResultsOf (results : List QcRuleResult) : List QcRuleResult :=
  results.filter (fun r => decide (r.outcome ≠ .SKIP))

/-- The source's `totalWeight` local. -/
def totalWeightOf (results : List QcRuleResult) : ℚ :=
  (enabledResultsOf results).foldl (fun sum r => sum + r.weight) 0

/-- The source's `weightedScore` local: vacuously 1 when the total weight
over non-SKIP results is not positive. -/
def weightedScoreOf (results : List QcRuleResult) : ℚ :=
  if totalWeightOf results ≤ 0 then 1
  else ((enabledResultsOf results).foldl (fun sum r => sum + r.score * r.weight) 0) / totalWeightOf results

/-- The source's `failedRuleIds` local. -/
def failedRuleIdsOf (results : List QcRuleResult) : List String :=
  (results.filter (fun r => decide (r.outcome = .FAIL))).map (·.ruleId)

/-- The source's `hasBlockerFail` local. -/
def hasBlockerFailOf (blockerFailureForcesFail : Bool) (results : List QcRuleResult) : Bool :=
  blockerFailureForcesFail &&
    results.any (fun r => decide (r.outcome = .FAIL) && decide (r.severity = .BLOCKER))

/-- Effective pass-score threshold (`request.options?.passScoreThreshold ?? 1`). -/
def passThresholdOf (request : RunQcRequest) : ℚ :=
  (request.options.bind (·.passScoreThreshold)).getD 1

/-- Effective blocker flag (`request.options?.blockerFailureForcesFail ?? true`). -/
def blockerFlagOf (request : RunQcRequest) : Bool :=
  (request.options.bind (·.blockerFailureForcesFail)).getD true

/-- The overall outcome computed by `runQc`. -/
def overallOutcomeOf (blockerFailureForcesFail : Bool) (passScoreThreshold : ℚ)
    (results : List QcRuleResult) : OverallOutcome :=
  if hasBlockerFailOf blockerFailureForcesFail results ||
      decide (weightedScoreOf results < passScoreThreshold) then .FAIL
  else .PASS

/-- Source `runQc`: evaluates every rule in order, aggregates a weighted
score over non-SKIP results, and derives the overall outcome; throws (as
`Except.error`) only on an out-of-range `passScoreThreshold`. The
source's local constants are factored into the named functions above. -/
def runQc (env : JsEnv) (request : RunQcRequest) : Except QcEngineError QcRunResult :=
  if passThresholdOf request < 0 ∨ passThresholdOf request > 1 then
    .error (.ruleValidationError "passScoreThreshold must be between 0 and 1")
  else
    let results := runQcResults env request
    .ok
      { summary :=
          { engineVersion := QC_ENGINE_VERSION
            executedAt := request.executedAtIso
            overallOutcome := overallOutcomeOf (blockerFlagOf request) (passThresholdOf request) results
            overallScore := max 0 (min 1 (weightedScoreOf results))
            failedRuleIds := failedRuleIdsOf results }
        ruleResults := results }


/-- Error taxonomy of the public error shape. -/
inductive QcErrorCategory where
  | VALIDATION | INTEGRATION | EXECUTION | RULE_EVALUATION
deriving Repr, DecidableEq

/-- Customer-facing public error shape (`QcPublicError`). -/
structure QcPublicError where
  category : QcErrorCategory
  code : String
  message : String
  help : Option String := none
  retryable : Bool
deriving Repr, DecidableEq

/-- Run lifecycle states (`RunStatus` in qcResultMapping). -/
inductive RunStatus where
  | QUEUED | RUNNING | SUCCEEDED | FAILED | CANCELLED
deriving Repr, DecidableEq, Fintype

/-- Persisted per-rule statuses (`RuleStatus`): the results system maps the
engine outcome SKIP to NOT_EVALUATED. -/
inductive RuleStatus where
  | PASS | FAIL | NOT_EVALUATED | ERROR
deriving Repr, DecidableEq

/-- Kinds of persisted evidence references (`EvidenceRef.kind`). -/
inductive EvidenceRefKind where
  | TEXT_SNIPPET | FIELD_VALUE | FILE_REF | SHEET_CELL | TIME_RANGE | GENERIC
deriving Repr, DecidableEq

/-- Source-provenance block of an evidence reference. -/
structure EvidenceSource where
  storagePath : Option String := none
  fileName : Option String := none
  contentType : Option String := none
deriving Repr, DecidableEq

/-- Location block of an evidence reference. Only the `fieldPath` member is
ever produced by this code path; the unproduced optional members (line,
column, sheet, row, cell, startMs, endMs) are omitted. -/
structure EvidenceLocation where
  fieldPath : Option (List String) := none
deriving Repr, DecidableEq

/-- Persisted evidence reference (`EvidenceRef`); the `snippet` member is
never produced by this code path and is omitted. -/
structure EvidenceRef where
  kind : EvidenceRefKind
  title : String
  detail : Option String := none
  source : Option EvidenceSource := none
  location : Option EvidenceLocation := none
deriving Repr, DecidableEq

/-- Persisted per-rule result document (`RuleResultDoc`). -/
structure RuleResultDoc where
  order : Nat
  ruleId : String
  ruleName : String
  ruleType : QcRuleType
  weight : ℚ
  severity : QcSeverity
  status : RuleStatus
  score : ℚ
  reason : Option String := none
  evidence : List EvidenceRef
  error : Option QcPublicError := none
deriving Repr, DecidableEq

/-- Rule-status counters (`summarizeRuleStatuses` result shape). -/
structure RuleCounts where
  total : Nat
  pass : Nat
  fail : Nat
  notEvaluated : Nat
  error : Nat
deriving Repr, DecidableEq

/-- JavaScript truthiness of an optional string: absent and empty are both
falsy. -/
def optStrTruthy : Option String → Bool
  | some s => decide (s.length ≠ 0)
  | none => false

/-- Source `ruleOutcomeToStatus`. -/
def ruleOutcomeToStatus : RuleOutcome → RuleStatus
  | .PASS => .PASS
  | .FAIL => .FAIL
  | .ERROR => .ERROR
  | .SKIP => .NOT_EVALUATED

/-- Source `firstReasonFromEvidence`: the message of the first evidence
entry with a nonempty message. -/
def firstReasonFromEvidence (evidence : List Evidence) : Option String :=
  (evidence.find? (fun x => decide (x.message.length > 0))).map (·.message)

/-- JavaScript `Math.round` (round half toward positive infinity). -/
def jsRound (q : ℚ) : ℤ := ⌊q + 1 / 2⌋

/-- Options record handed to `evidenceToRefs`. -/
structure EvidenceRefOptions where
  storagePath : Option String := none
  fileName : Option String := none
  contentType : Option String := none
  contextPrefix : Option String := none
deriving Repr, DecidableEq

/-- Source `evidenceToRefs`: maps engine evidence to persisted evidence
references, attaching the source block when any provenance field is
truthy, the field-path location when present, and the special
audio-duration hint from metadata. -/
def evidenceToRefs (evidence : List Evidence) (options : EvidenceRefOptions) : List EvidenceRef :=
  let prefixStr := match options.contextPrefix with
    | some p => if p.length > 0 then p else ""
    | none => ""
  evidence.map (fun e =>
    let detail :=
      if prefixStr.length ≠ 0 && e.message.length ≠ 0 then prefixStr ++ e.message else e.message
    let source :=
      if optStrTruthy options.storagePath || optStrTruthy options.fileName || optStrTruthy options.contentType then
        some { storagePath := if optStrTruthy options.storagePath then options.storagePath else none
               fileName := if optStrTruthy options.fileName then options.fileName else none
               contentType := if optStrTruthy options.contentType then options.contentType else none }
      else none
    let location :=
      match e.path with
      | some p => if p.length ≠ 0 then some { fieldPath := some p } else none
      | none => none
    let ref : EvidenceRef :=
      { kind := .GENERIC, title := e.type, detail := some detail, source := source, location := location }
    let metaDuration := (e.meta.getD []).find? (fun kv => kv.1 == "durationMs")
    match e.type == "AUDIO_DURATION_LIMIT", metaDuration with
    | true, some (_, .num d) =>
      { ref with kind := .TIME_RANGE, title := "Audio duration",
                 detail := some ("Duration: " ++ toString (jsRound d) ++ " ms") }
    | _, _ => ref)

/-- Input record of `mapRuleResultToDoc`. -/
structure MapRuleResultInput where
  order : Nat
  rule : QcRuleDefinition
  result : QcRuleResult
  source : Option EvidenceSource := none
  contextPrefix : Option String := none
deriving Repr

/-- Source `mapRuleResultToDoc`: shapes one engine rule result into the
persistence-ready document, wrapping ERROR results in a customer-safe
public error. -/
def mapRuleResultToDoc (input : MapRuleResultInput) : RuleResultDoc :=
  let status := ruleOutcomeToStatus input.result.outcome
  let src := input.source.getD {}
  let base : RuleResultDoc :=
    { order := input.order
      ruleId := input.result.ruleId
      ruleName := input.rule.name
      ruleType := input.result.type
      weight := input.result.weight
      severity := input.result.severity
      status := status
      score := input.result.score
      evidence := evidenceToRefs input.result.evidence
        { storagePath := src.storagePath, fileName := src.fileName, contentType := src.contentType
          contextPrefix := match input.contextPrefix with
            | some p => if p.length ≠ 0 then some p else none
            | none => none } }
  let reason :=
    if status = .FAIL ∨ status = .NOT_EVALUATED then firstReasonFromEvidence input.result.evidence
    else none
  let withReason := if optStrTruthy reason then { base with reason := reason } else base
  if status = .ERROR then
    let err := input.result.error
    let publicErr : QcPublicError :=
      { category := .RULE_EVALUATION
        code := (err.map (·.code)).getD "RULE_EVALUATION_ERROR"
        message := "This rule could not be evaluated for the provided input."
        help := match err with
          | some e => if e.message.length ≠ 0 then some ("Details: " ++ e.message) else none
          | none => none
        retryable := false }
    { withReason with error := some publicErr }
  else withReason

/-- Source `summarizeRuleStatuses`. -/
def summarizeRuleStatuses (ruleDocs : List RuleResultDoc) : RuleCounts :=
  { total := ruleDocs.length
    pass := (ruleDocs.filter (fun r => decide (r.status = .PASS))).length
    fail := (ruleDocs.filter (fun r => decide (r.status = .FAIL))).length
    notEvaluated := (ruleDocs.filter (fun r => decide (r.status = .NOT_EVALUATED))).length
    error := (ruleDocs.filter (fun r => decide (r.status = .ERROR))).length }

/-- Participant roles recognised by the speaker-block scanner. -/
inductive ParticipantRole where
  | operator | customer
deriving Repr, DecidableEq

/-- Detected chat participants (`ChatSegment.participants`). -/
structure ChatParticipants where
  operator : Option String := none
  customer : Option String := none
deriving Repr, DecidableEq

/-- One detected chat segment (`ChatSegment`). -/
structure ChatSegment where
  index : Nat
  title : String
  chatId : Option String := none
  participants : Option ChatParticipants := none
  text : String
deriving Repr, DecidableEq

/-- Strategy tag reported by the splitter (`ChatSplitStrategy`). -/
inductive ChatSplitStrategy where
  | CHAT_ID | SEPARATORS | SPEAKER_BLOCKS | SINGLE
deriving Repr, DecidableEq

/-- Result of the transcript splitter. -/
structure ChatSplitResult where
  strategy : ChatSplitStrategy
  warning : Option String := none
  chats : List ChatSegment
deriving Repr, DecidableEq

/-- Source `normalizeNewlines`: a windows newline and then any lone
carriage return become a plain newline (single pass, equivalent to the
source's two sequential global replacements). -/
def normalizeNewlinesChars : List Char → List Char
  | [] => []
  | '\r' :: '\n' :: t => '\n' :: normalizeNewlinesChars t
  | '\r' :: t => '\n' :: normalizeNewlinesChars t
  | c :: t => c :: normalizeNewlinesChars t

/-- The horizontal-ellipsis character appended by `clampString`. -/
def ellipsis : String := ⟨[Char.ofNat 0x2026]⟩

/-- Source `clampString`. -/
def clampString (s : String) (maxLen : Nat) : String :=
  if s.length ≤ maxLen then s
  else jsTrimEnd (⟨s.data.take (maxLen - 1)⟩ : String) ++ ellipsis

/-- Split a character stream at newline characters, keeping empty
segments, as JavaScript split with a newline separator does. -/
def splitLinesAux (acc : List Char) : List Char → List (List Char)
  | [] => [acc.reverse]
  | '\n' :: t => acc.reverse :: splitLinesAux [] t
  | c :: t => splitLinesAux (c :: acc) t

/-- Source `splitIntoLines`. -/
def splitIntoLines (text : String) : List String :=
  (splitLinesAux [] (normalizeNewlinesChars text.data)).map (fun cs => (⟨cs⟩ : String))

/-- Join lines with a newline (JavaScript join). -/
def joinWithNewline : List String → String
  | [] => ""
  | [s] => s
  | s :: t => s ++ "\n" ++ joinWithNewline t

/-- Source `rebuildFromLines`: slice, join and trim. -/
def rebuildFromLines (lines : List String) (startLine endLineExclusive : Nat) : String :=
  jsTrim (joinWithNewline ((lines.drop startLine).take (endLineExclusive - startLine)))

/-- Strip a lowercase-ASCII pattern from the head of a character list,
comparing case-insensitively, returning the remainder in original case. -/
def stripCIChars : List Char → List Char → Option (List Char)
  | [], cs => some cs
  | _ :: _, [] => none
  | p :: ps, c :: cs => if Char.toLower c == p then stripCIChars ps cs else none

/-- Try to strip one of several literal alternatives (in order) from the
head of a character list, case-insensitively. The alternative sets used by
the splitter are pairwise prefix-incompatible, so first-match-wins agrees
with regex alternation. -/
def stripAltCI (pats : List String) (cs : List Char) : Option (List Char) :=
  match pats with
  | [] => none
  | p :: ps =>
    match stripCIChars p.data cs with
    | some r => some r
    | none => stripAltCI ps cs

/-- Regex one-or-more-whitespace: at least one JavaScript whitespace
character, consumed greedily. -/
def stripWsPlus (cs : List Char) : Option (List Char) :=
  match cs with
  | c :: t => if isJsWs c then some (t.dropWhile isJsWs) else none
  | [] => none

/-- Regex word characters. -/
def isWordChar (c : Char) : Bool :=
  (c ≥ 'a' && c ≤ 'z') || (c ≥ 'A' && c ≤ 'Z') || (c ≥ '0' && c ≤ '9') || c == '_'

/-- Regex word boundary right after a word character: satisfied at end of
input or when the next character is not a word character. -/
def atWordBoundary (cs : List Char) : Bool :=
  match cs with
  | [] => true
  | c :: _ => !isWordChar c

/-- Regex `^[-=*#]{5,}$` over a full (already trimmed) line. -/
def isSepCharRun (cs : List Char) : Bool :=
  decide (cs.length ≥ 5) && cs.all (fun c => c == '-' || c == '=' || c == '*' || c == '#')

/-- Regex `^(begin|end)\s+(chat|conversation|transcript)\b` (case
insensitive). -/
def isBeginEndChatLine (t : List Char) : Bool :=
  match stripAltCI ["begin", "end"] t with
  | none => false
  | some r1 =>
    match stripWsPlus r1 with
    | none => false
    | some r2 =>
      match stripAltCI ["chat", "conversation", "transcript"] r2 with
      | some r3 => atWordBoundary r3
      | none => false

/-- Regex `^end\s+of\s+(chat|conversation)\b` (case insensitive). -/
def isEndOfChatLine (t : List Char) : Bool :=
  match stripCIChars "end".data t with
  | none => false
  | some r1 =>
    match stripWsPlus r1 with
    | none => false
    | some r2 =>
      match stripCIChars "of".data r2 with
      | none => false
      | some r3 =>
        match stripWsPlus r3 with
        | none => false
        | some r4 =>
          match stripAltCI ["chat", "conversation"] r4 with
          | some r5 => atWordBoundary r5
          | none => false

/-- Source `isSeparatorLine`. -/
def isSeparatorLine (line : String) : Bool :=
  let t := jsTrim line
  if t.length = 0 then false
  else if isSepCharRun t.data then true
  else if isBeginEndChatLine t.data then true
  else if isEndOfChatLine t.data then true
  else false

/-- Tail of a labelled-participant match after the colon: the captured
name is the rest of the line trimmed (possibly empty when the rest is pure
whitespace, in which case the lazy capture takes a single whitespace
character that trims to the empty string); a line with nothing at all
after the colon does not match. -/
def parseLabeledRest (r3 : List Char) : Option String :=
  let r4 := r3.dropWhile isJsWs
  if r4.isEmpty then
    if r3.isEmpty then none else some ""
  else some (⟨dropTrailingWs r4⟩ : String)

/-- Match one labelled-participant alternative set against a line:
`^\s*(label1|...)\s*:\s*(.+?)\s*$`, case insensitive. -/
def parseRoleWithLabels (labels : List String) (line : String) : Option String :=
  let cs := dropLeadingWs line.data
  match stripAltCI labels cs with
  | none => none
  | some r1 =>
    match r1.dropWhile isJsWs with
    | ':' :: r3 => parseLabeledRest r3
    | _ => none

/-- Source `parseLabeledParticipant`. -/
def parseLabeledParticipant (line : String) : Option (ParticipantRole × String) :=
  match parseRoleWithLabels ["operator", "agent", "advisor", "rep"] line with
  | some name => some (.operator, name)
  | none =>
    match parseRoleWithLabels ["customer", "client", "caller", "buyer"] line with
    | some name => some (.customer, name)
    | none => none

/-- Keyword part of the chat-id header regex:
`(chat\s*(id|#)|conversation\s*id|ticket\s*(id|#))`, case insensitive,
returning the remainder after the keyword. -/
def chatIdKeywordTail (cs : List Char) : Option (List Char) :=
  match stripCIChars "chat".data cs with
  | some r =>
    let r1 := r.dropWhile isJsWs
    (match stripCIChars "id".data r1 with
     | some t => some t
     | none =>
       match r1 with
       | '#' :: t => some t
       | _ => none)
  | none =>
    match stripCIChars "conversation".data cs with
    | some r => stripCIChars "id".data (r.dropWhile isJsWs)
    | none =>
      match stripCIChars "ticket".data cs with
      | some r =>
        let r1 := r.dropWhile isJsWs
        (match stripCIChars "id".data r1 with
         | some t => some t
         | none =>
           match r1 with
           | '#' :: t => some t
           | _ => none)
      | none => none

/-- Tail of the chat-id header regex, `\s*[:#]?\s*(.+?)\s*$`: the captured
id is the remainder trimmed, after at most one leading colon or hash; when
the remainder is exactly one colon or hash the optional `[:#]?` backtracks
to empty and that character itself is captured. -/
def chatIdFromTail (r : List Char) : Option String :=
  let r1 := r.dropWhile isJsWs
  match r1 with
  | [] => none
  | c :: rest =>
    if c == ':' || c == '#' then
      let r2 := rest.dropWhile isJsWs
      if r2.isEmpty then
        if rest.isEmpty then some (⟨[c]⟩ : String) else none
      else some (⟨dropTrailingWs r2⟩ : String)
    else some (⟨dropTrailingWs r1⟩ : String)

/-- Source `findChatIdHeader`: recognises lines such as `Chat ID: 12345`,
`Conversation ID: abc`, `Ticket ID: 999` or `Chat #123`, rejecting an id
that trims to the empty string. -/
def findChatIdHeader (line : String) : Option String :=
  match chatIdKeywordTail (dropLeadingWs line.data) with
  | none => none
  | some r =>
    match chatIdFromTail r with
    | some cid => if cid.length = 0 then none else some cid
    | none => none

/-- One segment range: a start line and the exclusive end line (named
`stop` because `end` is reserved in Lean). -/
structure SegmentRange where
  start : Nat
  stop : Nat
deriving Repr, DecidableEq

/-- Insert into a sorted list of naturals (ascending). -/
def insertSortedNat (x : Nat) : List Nat → List Nat
  | [] => [x]
  | a :: t => if x ≤ a then x :: a :: t else a :: insertSortedNat x t

/-- Sort naturals ascending (insertion sort, JavaScript numeric sort). -/
def sortNats : List Nat → List Nat
  | [] => []
  | a :: t => insertSortedNat a (sortNats t)

/-- Remove duplicates keeping first occurrences (JavaScript `new Set`),
carrying the set of already-seen elements. -/
def dedupNatsAux (seen : List Nat) : List Nat → List Nat
  | [] => []
  | a :: t => if seen.contains a then dedupNatsAux seen t else a :: dedupNatsAux (a :: seen) t

/-- JavaScript `[...new Set(startLines)]`. -/
def dedupNats (l : List Nat) : List Nat := dedupNatsAux [] l

/-- Build segment ranges from a sorted list of start lines: each start runs
to the next start, the last to the end of the text, and empty ranges are
dropped. -/
def segmentsOfSorted (lineCount : Nat) : List Nat → List SegmentRange
  | [] => []
  | [a] => if a < lineCount then [⟨a, lineCount⟩] else []
  | a :: b :: t => (if a < b then [(⟨a, b⟩ : SegmentRange)] else []) ++ segmentsOfSorted lineCount (b :: t)

/-- Source `computeSegmentsFromStarts`. -/
def computeSegmentsFromStarts (lineCount : Nat) (startLines : List Nat) : List SegmentRange :=
  segmentsOfSorted lineCount (sortNats (dedupNats startLines))

/-- Minimum rebuilt-text length for a segment to count (source
`filterNonTrivialSegments` local constant). -/
def minChars : Nat := 120

/-- Source `filterNonTrivialSegments`. -/
def filterNonTrivialSegments (lines : List String) (segments : List SegmentRange) : List SegmentRange :=
  segments.filter (fun s => decide ((rebuildFromLines lines s.start s.stop).length ≥ minChars))

/-- All chat-id header hits, with their line indexes. -/
def chatIdStartsOf (lines : List String) : List (Nat × String) :=
  lines.enum.filterMap (fun p => (findChatIdHeader p.2).map (fun cid => (p.1, cid)))

/-- Stage F of the splitter: chat-id headers. Returns the accepted result,
or none when the stage does not yield at least two usable segments. -/
def chatIdAttempt (lines : List String) : Option ChatSplitResult :=
  let chatIdStarts := chatIdStartsOf lines
  if chatIdStarts.length ≥ 2 then
    let segments := computeSegmentsFromStarts lines.length (chatIdStarts.map (·.1))
    let usable := filterNonTrivialSegments lines segments
    if usable.length ≥ 2 then
      some
        { strategy := .CHAT_ID
          chats := usable.enum.map (fun q =>
            let seg := q.2
            let header := chatIdStarts.find? (fun x => x.1 == seg.start)
            let chatId := header.map (·.2)
            { index := q.1
              title := match chatId with
                | some cid => "Chat " ++ clampString cid 48
                | none => "Chat " ++ toString (q.1 + 1)
              chatId := chatId
              text := rebuildFromLines lines seg.start seg.stop }) }
    else none
  else none

/-- Scan a suffix of the line list for the first line (by absolute index)
whose trimmed text is nonempty. -/
def firstNonEmptyAux : Nat → List String → Option Nat
  | _, [] => none
  | j, l :: t => if (jsTrim l).length ≠ 0 then some j else firstNonEmptyAux (j + 1) t

/-- First line index at or after `j` whose trimmed text is nonempty. -/
def firstNonEmptyFrom (lines : List String) (j : Nat) : Option Nat :=
  firstNonEmptyAux j (lines.drop j)

/-- Segment-start candidates derived from separator lines: the first
nonempty line after each separator. -/
def separatorStartsOf (lines : List String) : List Nat :=
  lines.enum.filterMap (fun p =>
    if isSeparatorLine p.2 then firstNonEmptyFrom lines (p.1 + 1) else none)

/-- Stage B of the splitter: explicit separators, with line 0 as an
implicit start. -/
def separatorsAttempt (lines : List String) : Option ChatSplitResult :=
  let sepStarts := separatorStartsOf lines
  if sepStarts.length ≥ 1 then
    let starts := 0 :: sepStarts
    let segments := computeSegmentsFromStarts lines.length starts
    let usable := filterNonTrivialSegments lines segments
    if usable.length ≥ 2 then
      some
        { strategy := .SEPARATORS
          chats := usable.enum.map (fun q =>
            { index := q.1
              title := "Chat " ++ toString (q.1 + 1)
              text := rebuildFromLines lines q.2.start q.2.stop }) }
    else none
  else none

/-- Record one participant role into the accumulating block. -/
def setRole (p : ChatParticipants) : ParticipantRole × String → ChatParticipants
  | (.operator, n) => { p with operator := some n }
  | (.customer, n) => { p with customer := some n }

/-- First labelled participant in a list of lines (the inner lookahead loop
breaks on the first match regardless of role). -/
def firstParsedIn : List String → Option (ParticipantRole × String)
  | [] => none
  | l :: t =>
    match parseLabeledParticipant l with
    | some x => some x
    | none => firstParsedIn t

/-- Speaker-block anchors: lines bearing a participant label where the
counterpart role also appears within the next nine lines and both names
are nonempty. -/
def participantStartsOf (lines : List String) : List (Nat × ChatParticipants) :=
  lines.enum.filterMap (fun p =>
    match parseLabeledParticipant p.2 with
    | none => none
    | some first =>
      let base := setRole {} first
      let participants :=
        match firstParsedIn ((lines.drop (p.1 + 1)).take 9) with
        | some next => setRole base next
        | none => base
      let hasBoth := optStrTruthy participants.operator && optStrTruthy participants.customer
      if hasBoth then some (p.1, participants) else none)

/-- Stage D of the splitter: operator/customer speaker blocks. -/
def speakerBlocksAttempt (lines : List String) : Option ChatSplitResult :=
  let participantStarts := participantStartsOf lines
  if participantStarts.length ≥ 2 then
    let segments := computeSegmentsFromStarts lines.length (participantStarts.map (·.1))
    let usable := filterNonTrivialSegments lines segments
    if usable.length ≥ 2 then
      some
        { strategy := .SPEAKER_BLOCKS
          chats := usable.enum.map (fun q =>
            let seg := q.2
            let found := participantStarts.find? (fun x => x.1 == seg.start)
            let participants := found.map (·.2)
            let title :=
              match participants with
              | some ps =>
                if optStrTruthy ps.operator && optStrTruthy ps.customer then
                  clampString (ps.operator.getD "") 28 ++ " ↔ " ++ clampString (ps.customer.getD "") 28
                else "Chat " ++ toString (q.1 + 1)
              | none => "Chat " ++ toString (q.1 + 1)
            { index := q.1
              title := title
              participants := participants
              text := rebuildFromLines lines seg.start seg.stop }) }
    else none
  else none

/-- Warning attached by the single-segment fallback. -/
def singleFallbackWarning : String :=
  "Could not reliably detect multiple chats in this file. The entire upload was treated as a single chat. If this is wrong, export chats with a Chat ID header or separators between chats."

/-- Source `splitTranscriptIntoChats`: tries chat-id headers, explicit
separators, then speaker blocks, in that order, accepting the first
strategy that yields at least two non-trivial segments, and otherwise
returns the whole normalized text as one chat with a warning. -/
def splitTranscriptIntoChats (text : String) : ChatSplitResult :=
  let normalized := jsTrim (⟨normalizeNewlinesChars text.data⟩ : String)
  if normalized.length = 0 then
    { strategy := .SINGLE
      warning := some "No text found to split."
      chats := [{ index := 0, title := "Chat 1", text := "" }] }
  else
    let lines := splitIntoLines normalized
    match chatIdAttempt lines with
    | some r => r
    | none =>
      match separatorsAttempt lines with
      | some r => r
      | none =>
        match speakerBlocksAttempt lines with
        | some r => r
        | none =>
          { strategy := .SINGLE
            warning := some singleFallbackWarning
            chats := [{ index := 0, title := "Chat 1", text := normalized }] }

/-- Status rank order used by the aggregator (`statusRank`):
NOT_EVALUATED(0) < PASS(1) < FAIL(2) < ERROR(3). -/
def statusRank : RuleStatus → Nat
  | .NOT_EVALUATED => 0
  | .PASS => 1
  | .FAIL => 2
  | .ERROR => 3

/-- Inverse of the rank order (`rankToStatus`). -/
def rankToStatus (rank : Nat) : RuleStatus :=
  if rank ≥ 3 then .ERROR
  else if rank = 2 then .FAIL
  else if rank = 1 then .PASS
  else .NOT_EVALUATED

/-- JavaScript `Math.max(...)` over a list; every call site passes a
nonempty list, so the empty arm (JavaScript -Infinity) is arbitrary. -/
def listMaxNat : List Nat → Nat
  | [] => 0
  | a :: t => t.foldl max a

/-- JavaScript `Math.min(...)` over a list of rationals; every call site
passes a nonempty list, so the empty arm is arbitrary. -/
def listMinQ : List ℚ → ℚ
  | [] => 0
  | a :: t => t.foldl min a

/-- Placeholder document standing for the source's non-null assertion
`x.docs[i]!`; it is never reached when all segments share the same rule
count, which every caller guarantees. -/
def defaultRuleDoc : RuleResultDoc :=
  { order := 0, ruleId := "", ruleName := "", ruleType := .TEXT_REGEX, weight := 0
    severity := .MAJOR, status := .NOT_EVALUATED, score := 0, evidence := [] }

/-- Per-chat attribution prefix used when concatenating evidence. -/
def chatPrefixOf (chat : ChatSegment) : String :=
  "Chat " ++ toString (chat.index + 1) ++
    (if chat.title.length ≠ 0 then " (" ++ chat.title ++ ")" else "") ++ ": "

/-- The aggregator's filter deciding whether a segment's evidence (and
reason) contributes to the combined entry: the segment's status must equal
the combined status (the second disjunct of the source condition is
redundant but kept as written). -/
def evidenceMatchesStatus (status docStatus : RuleStatus) : Bool :=
  decide (docStatus = status) || (decide (status = .FAIL) && decide (docStatus = .FAIL))

/-- Prefix every evidence entry of a segment's rule document with the chat
attribution; an absent or empty detail is replaced by the trimmed
prefix. -/
def prefixedEvidence (chat : ChatSegment) (doc : RuleResultDoc) : List EvidenceRef :=
  doc.evidence.map (fun ev =>
    let pfx := chatPrefixOf chat
    { ev with detail := some (match ev.detail with
        | some d => if d.length ≠ 0 then pfx ++ d else jsTrimEnd pfx
        | none => jsTrimEnd pfx) })

/-- Cap on combined evidence entries. -/
def maxCombinedEvidence : Nat := 25

/-- Combined evidence of one rule index: concatenated evidence from
segments whose status matches, each entry prefixed with its chat, capped
at 25 entries (the source's two `break` statements amount to appending
nothing once the cap is reached). -/
def combinedEvidence (status : RuleStatus) (entries : List (ChatSegment × RuleResultDoc)) :
    List EvidenceRef :=
  entries.foldl (fun acc e =>
    if !(evidenceMatchesStatus status e.2.status) then acc
    else acc ++ (prefixedEvidence e.1 e.2).take (maxCombinedEvidence - acc.length)) []

/-- Combined reason of one rule index: for FAIL or NOT_EVALUATED combined
statuses, the first matching segment with a truthy reason contributes its
reason. -/
def combinedReason (status : RuleStatus) (entries : List (ChatSegment × RuleResultDoc)) :
    Option String :=
  if status = .FAIL ∨ status = .NOT_EVALUATED then
    (entries.find? (fun e => evidenceMatchesStatus status e.2.status && optStrTruthy e.2.reason)).bind
      (·.2.reason)
  else none

/-- Source `combineAggregatedRuleDocs`: for each rule index, combine the
per-segment documents into one, with worst-case status (by `statusRank`),
minimum score (`Number.isFinite` always holds for rationals, so the
source's fallback to 0 for non-finite scores reduces to the score itself),
first matching reason (falling back to the first segment's reason via the
object spread when the computed reason is absent), and capped prefixed
evidence; all other fields come from the first segment's document. -/
def combineAggregatedRuleDocs (perChatRuleDocs : List (ChatSegment × List RuleResultDoc)) :
    List RuleResultDoc :=
  match perChatRuleDocs with
  | [] => []
  | first :: _ =>
    let ruleCount := first.2.length
    (List.range ruleCount).map (fun i =>
      let entries := perChatRuleDocs.map (fun x => (x.1, x.2.getD i defaultRuleDoc))
      let worstRank := listMaxNat (entries.map (fun e => statusRank e.2.status))
      let status := rankToStatus worstRank
      let score := listMinQ (entries.map (fun e => e.2.score))
      let reason := combinedReason status entries
      let evidence := combinedEvidence status entries
      let base := (entries.headD (first.1, defaultRuleDoc)).2
      { base with
        status := status
        score := score
        reason := match reason with
          | some r => some r
          | none => base.reason
        evidence := evidence })

/-- Per-chat summary block (`ChatResultSummary.summary`). -/
structure ChatSummaryBlock where
  overallOutcome : OverallOutcome
  overallScore : ℚ
  failedRuleIds : List String
  ruleCounts : RuleCounts
deriving Repr, DecidableEq

/-- Per-chat result summary (`ChatResultSummary`). -/
structure ChatResultSummary where
  index : Nat
  title : String
  chatId : Option String := none
  participants : Option ChatParticipants := none
  summary : ChatSummaryBlock
deriving Repr, DecidableEq

/-- Combined run-level summary shape produced by
`combineRunSummaryFromChats`. -/
structure RunSummaryCombined where
  overallOutcome : OverallOutcome
  overallScore : ℚ
  failedRuleIds : List String
deriving Repr, DecidableEq

/-- Remove duplicate strings keeping first occurrences, carrying the set
of already-seen elements. -/
def dedupStringsAux (seen : List String) : List String → List String
  | [] => []
  | a :: t => if seen.contains a then dedupStringsAux seen t else a :: dedupStringsAux (a :: seen) t

/-- JavaScript `Array.from(new Set(...))` over strings. -/
def dedupStrings (l : List String) : List String := dedupStringsAux [] l

/-- Source `combineRunSummaryFromChats`: FAIL when any chat fails,
minimum chat score (1 with no chats), union of failed rule ids. Every
failed rule id is a string in this model, so the source's string filter is
the identity. -/
def combineRunSummaryFromChats (chatSummaries : List ChatResultSummary) : RunSummaryCombined :=
  let overallOutcome :=
    if chatSummaries.any (fun c => decide (c.summary.overallOutcome = .FAIL)) then OverallOutcome.FAIL
    else OverallOutcome.PASS
  let overallScore :=
    match chatSummaries with
    | [] => 1
    | c :: t => (t.map (·.summary.overallScore)).foldl min c.summary.overallScore
  let failedRuleIds := dedupStrings ((chatSummaries.map (·.summary.failedRuleIds)).flatten)
  { overallOutcome := overallOutcome, overallScore := overallScore, failedRuleIds := failedRuleIds }

/-- Result write-state marker of the two-phase protocol. -/
inductive WriteState where
  | WRITING | COMPLETE
deriving Repr, DecidableEq

/-- Abstract persisted state of one run and its result document, tracking
exactly the fields the completion protocol manipulates: the run lifecycle
status, whether the result document exists, its write-state marker (`none`
both before creation and on the single-batch path, which writes no
`writeState` field), how many rule-result records have been committed, and
the advertised `expectedRuleCount`. -/
structure PersistState where
  runStatus : RunStatus
  resultExists : Bool
  writeState : Option WriteState
  ruleResultsWritten : Nat
  expectedRuleCount : Option Nat
deriving Repr, DecidableEq

/-- The guarding transaction at the top of `processQcRun`: a run found
CANCELLED, or in any state other than QUEUED, is left untouched and the
transaction reports no transition; only a QUEUED run is promoted to
RUNNING. -/
def beginProcessingTx (status : RunStatus) : RunStatus × Bool :=
  if status = .CANCELLED then (status, false)
  else if status ≠ .QUEUED then (status, false)
  else (.RUNNING, true)

/-- The gate right after the guarding transaction:
`if (run.status !== 'RUNNING') return;` — the invocation proceeds to load
rules, evaluate and persist exactly when the re-read status is RUNNING. -/
def proceedsPastGuard (statusAtReread : RunStatus) : Bool :=
  statusAtReread == RunStatus.RUNNING

/-- Observable effects of one `processQcRun` invocation. -/
structure InvocationEffect where
  transitionedToRunning : Bool
  evaluated : Bool
  wroteResultRecords : Bool
deriving Repr, DecidableEq

/-- One whole `processQcRun` invocation on the success path, as a function
of the run status its guarding transaction observes (no interleaved writer
between the guard and the re-read): the guard runs, the re-read sees the
guarded status, and when that status is RUNNING the body evaluates the
rules, writes the result records and finishes the run as SUCCEEDED;
otherwise the invocation returns without further effect. -/
def processQcRunInvocation (statusAtGuard : RunStatus) : RunStatus × InvocationEffect :=
  let guarded := beginProcessingTx statusAtGuard
  if proceedsPastGuard guarded.1 then
    (.SUCCEEDED, { transitionedToRunning := guarded.2, evaluated := true, wroteResultRecords := true })
  else
    (guarded.1, { transitionedToRunning := guarded.2, evaluated := false, wroteResultRecords := false })

/-- Initial persisted state of the write phase: run RUNNING, no result
document yet. -/
def initialTwoPhaseState : PersistState :=
  { runStatus := .RUNNING, resultExists := false, writeState := none
    ruleResultsWritten := 0, expectedRuleCount := none }

/-- Phase one of the two-phase write: `resultRef.create` with writeState
WRITING and the advertised `expectedRuleCount`. -/
def createResultWriting (n : Nat) (s : PersistState) : PersistState :=
  { s with resultExists := true, writeState := some .WRITING, expectedRuleCount := some n }

/-- Commit of one rule-result chunk of `k` records. -/
def commitChunk (k : Nat) (s : PersistState) : PersistState :=
  { s with ruleResultsWritten := s.ruleResultsWritten + k }

/-- Chunk size of the two-phase rule-result writes. -/
def chunkSize : Nat := 400

/-- States after each successive chunk commit, mirroring the source loop
over slices of 400 records; structured with a fuel argument (each
iteration writes at least one record, so the number of remaining records
is itself enough fuel). -/
def chunkStatesFuel : Nat → PersistState → Nat → List PersistState
  | 0, _, _ => []
  | fuel + 1, s, remaining =>
    if remaining = 0 then []
    else
      let k := min chunkSize remaining
      let s1 := commitChunk k s
      s1 :: chunkStatesFuel fuel s1 (remaining - k)

/-- States after each successive chunk commit of `remaining` records. -/
def chunkStates (s : PersistState) (remaining : Nat) : List PersistState :=
  chunkStatesFuel remaining s remaining

/-- The final transaction of the two-phase write: re-reads the run and, only
when it is still RUNNING, flips the result to COMPLETE and the run to
SUCCEEDED together in one atomic step. -/
def finalizeTransaction (s : PersistState) : PersistState :=
  if s.runStatus = .RUNNING then
    { s with writeState := some .COMPLETE, runStatus := .SUCCEEDED }
  else s

/-- Every persisted state observable during the two-phase write of `n`
rule-result records: the initial state, the state after result creation,
the state after each chunk commit, and the state after the final
transaction. Multi-chat runs additionally write chat-summary documents
between the chunk commits and the final transaction; those writes touch
none of the tracked fields. -/
def twoPhaseTrace (n : Nat) : List PersistState :=
  let s0 := initialTwoPhaseState
  let s1 := createResultWriting n s0
  let cs := chunkStates s1 n
  s0 :: s1 :: (cs ++ [finalizeTransaction (cs.getLastD s1)])

/-- Persistence strategy chosen by the orchestrator. -/
inductive PersistPath where
  | singleBatch | twoPhase
deriving Repr, DecidableEq

/-- The store's single-transaction write-count ceiling used by the
orchestrator. -/
def singleBatchWriteCeiling : Nat := 450

/-- Source `totalWritesNeeded`: one result document, one rule-result
record per aggregated rule document, one run update. -/
def totalWritesNeeded (ruleDocCount : Nat) : Nat := 1 + ruleDocCount + 1

/-- The orchestrator's persistence decision (`canSingleBatch`): a single
atomic batch only for single-chat runs whose total write count fits the
ceiling; everything else takes the two-phase write. -/
def choosePersistPath (multiChatEnabled : Bool) (ruleDocCount : Nat) : PersistPath :=
  if !multiChatEnabled && decide (totalWritesNeeded ruleDocCount ≤ singleBatchWriteCeiling) then
    .singleBatch
  else .twoPhase

/-- The single-batch commit: one atomic step that creates the result
document (without any `writeState` field), all rule-result records, and
the run update to SUCCEEDED. -/
def singleBatchCommit (n : Nat) (s : PersistState) : PersistState :=
  { s with resultExists := true, ruleResultsWritten := n, runStatus := .SUCCEEDED }

/-- Persisted states observable on the single-batch path: the initial
state and the state after the one atomic commit. -/
def singleBatchTrace (n : Nat) : List PersistState :=
  [initialTwoPhaseState, singleBatchCommit n initialTwoPhaseState]

/-- An arbitrary but fixed host environment, used to instantiate
environment-polymorphic theorems at concrete inputs. -/
def defaultJsEnv : JsEnv :=
  { regExpCompile := fun _ _ => .ok (fun _ => false)
    dateParse := fun _ => none
    jsToNumber := fun _ => none
    jsToString := fun _ => "" }

/-- Chunk-commit steps change only the written-record counter: run status,
write-state marker, result existence and expected count are untouched. -/
theorem chunkStatesFuel_mem_fields :
    ∀ (fuel : Nat) (s : PersistState) (remaining : Nat),
      ∀ t ∈ chunkStatesFuel fuel s remaining,
        t.runStatus = s.runStatus ∧ t.writeState = s.writeState ∧
        t.resultExists = s.resultExists ∧ t.expectedRuleCount = s.expectedRuleCount := by
  intro fuel
  induction fuel with
  | zero => intro s remaining t ht; simp [chunkStatesFuel] at ht
  | succ m ih =>
    intro s remaining t ht
    rw [chunkStatesFuel] at ht
    split at ht
    · simp at ht
    · simp only [List.mem_cons] at ht
      rcases ht with rfl | h
      · simp [commitChunk]
      · have := ih _ _ _ h
        simpa [commitChunk] using this

/-- After all chunk commits, exactly `remaining` records have been added
and every other field is unchanged (provided the fuel suffices, which
`chunkStates` guarantees by using `remaining` itself). -/
theorem chunkStatesFuel_last_written :
    ∀ (fuel : Nat) (s : PersistState) (remaining : Nat), remaining ≤ fuel →
      ((chunkStatesFuel fuel s remaining).getLastD s).ruleResultsWritten =
        s.ruleResultsWritten + remaining ∧
      ((chunkStatesFuel fuel s remaining).getLastD s).runStatus = s.runStatus ∧
      ((chunkStatesFuel fuel s remaining).getLastD s).writeState = s.writeState ∧
      ((chunkStatesFuel fuel s remaining).getLastD s).resultExists = s.resultExists ∧
      ((chunkStatesFuel fuel s remaining).getLastD s).expectedRuleCount = s.expectedRuleCount := by
  intro fuel
  induction fuel with
  | zero =>
    intro s remaining h
    have : remaining = 0 := Nat.le_zero.mp h
    subst this
    simp [chunkStatesFuel]
  | succ m ih =>
    intro s remaining h
    rw [chunkStatesFuel]
    split
    · rename_i h0
      subst h0
      simp
    · rename_i h0
      rw [List.getLastD_cons]
      have hk : min chunkSize remaining ≤ remaining := Nat.min_le_right _ _
      have hk1 : 1 ≤ min chunkSize remaining := by
        have : 0 < remaining := Nat.pos_of_ne_zero h0
        simp only [chunkSize]
        omega
      have hrec := ih (commitChunk (min chunkSize remaining) s)
        (remaining - min chunkSize remaining) (by omega)
      simp only [commitChunk] at hrec ⊢
      refine ⟨?_, hrec.2.1, hrec.2.2.1, hrec.2.2.2.1, hrec.2.2.2.2⟩
      rw [hrec.1]
      omega

/-- Two persisted states agreeing on every field are equal. -/
theorem persistState_ext {s t : PersistState}
    (h1 : s.runStatus = t.runStatus) (h2 : s.resultExists = t.resultExists)
    (h3 : s.writeState = t.writeState) (h4 : s.ruleResultsWritten = t.ruleResultsWritten)
    (h5 : s.expectedRuleCount = t.expectedRuleCount) : s = t := by
  cases s; cases t; simp_all

/-- The state reached after all chunk commits of the two-phase write: run
still RUNNING, result WRITING, all records written. -/
theorem chunkStates_getLastD_twoPhase (n : Nat) :
    (chunkStates (createResultWriting n initialTwoPhaseState) n).getLastD
      (createResultWriting n initialTwoPhaseState) =
    (⟨.RUNNING, true, some .WRITING, n, some n⟩ : PersistState) := by
  have h := chunkStatesFuel_last_written n (createResultWriting n initialTwoPhaseState) n (le_refl n)
  simp only [chunkStates]
  refine persistState_ext ?_ ?_ ?_ ?_ ?_
  · simpa [createResultWriting, initialTwoPhaseState] using h.2.1
  · simpa [createResultWriting, initialTwoPhaseState] using h.2.2.2.1
  · simpa [createResultWriting, initialTwoPhaseState] using h.2.2.1
  · simpa [createResultWriting, initialTwoPhaseState] using h.1
  · simpa [createResultWriting, initialTwoPhaseState] using h.2.2.2.2

/-- The last persisted state of the two-phase write: run SUCCEEDED, result
present and COMPLETE, all `n` rule-result records written, expected count
advertised. -/
theorem twoPhaseTrace_getLastD (n : Nat) :
    (twoPhaseTrace n).getLastD initialTwoPhaseState =
      (⟨.SUCCEEDED, true, some .COMPLETE, n, some n⟩ : PersistState) := by
  simp only [twoPhaseTrace]
  rw [List.getLastD_cons, List.getLastD_cons, List.getLastD_concat,
    chunkStates_getLastD_twoPhase n]
  simp [finalizeTransaction]

/-- C1. In the two-phase write path the result is created with writeState
WRITING, all rule-result chunks are committed, and only the final
transaction flips the result to COMPLETE and the run to SUCCEEDED
together: in every state observable along the trace, a SUCCEEDED run
implies the result exists with writeState COMPLETE and all
`expectedRuleCount` rule-result records written, and no state ever shows
the run SUCCEEDED while the result's writeState is still WRITING. -/
theorem two_phase_succeeded_iff_complete (n : Nat) :
    ∀ s ∈ twoPhaseTrace n,
      (s.runStatus = .SUCCEEDED →
        s.writeState = some .COMPLETE ∧ s.resultExists = true ∧
        s.ruleResultsWritten = n ∧ s.expectedRuleCount = some n) ∧
      ¬(s.runStatus = .SUCCEEDED ∧ s.writeState = some .WRITING) := by
  intro s hs
  have hlast := twoPhaseTrace_getLastD n
  simp only [twoPhaseTrace, List.mem_cons, List.mem_append, List.mem_singleton] at hs
  rcases hs with rfl | rfl | hs | rfl | hnil
  · simp [initialTwoPhaseState]
  · simp [createResultWriting, initialTwoPhaseState]
  · have := chunkStatesFuel_mem_fields n _ n s (by simpa [chunkStates] using hs)
    have hrun : s.runStatus = .RUNNING := by
      simpa [createResultWriting, initialTwoPhaseState] using this.1
    constructor
    · intro hsucc; rw [hrun] at hsucc; cases hsucc
    · rintro ⟨hsucc, -⟩; rw [hrun] at hsucc; cases hsucc
  · have heq : finalizeTransaction
        ((chunkStates (createResultWriting n initialTwoPhaseState) n).getLastD
          (createResultWriting n initialTwoPhaseState)) =
        (twoPhaseTrace n).getLastD initialTwoPhaseState := by
      simp only [twoPhaseTrace]
      rw [List.getLastD_cons, List.getLastD_cons, List.getLastD_concat]
    rw [heq, hlast]
    simp
  · cases hnil

/-- Witness for C1 at two rule-result records: the final trace state is
SUCCEEDED with a COMPLETE result and both records written. -/
theorem two_phase_succeeded_iff_complete_witness :
    ((twoPhaseTrace 2).getLastD initialTwoPhaseState).writeState = some WriteState.COMPLETE ∧
    ((twoPhaseTrace 2).getLastD initialTwoPhaseState).ruleResultsWritten = 2 := by
  have h := (two_phase_succeeded_iff_complete 2
    ((twoPhaseTrace 2).getLastD initialTwoPhaseState) (by decide)).1 (by decide)
  exact ⟨h.1, h.2.2.1⟩

/-- C8. The orchestrator uses one atomic batch exactly for single-chat
runs whose write count 1 + N + 1 fits the 450-write ceiling; 500 rules
(502 writes) and every multi-chat run take the two-phase path, whose
trace starts by creating the result as WRITING with the advertised
expectedRuleCount and ends with the flip to COMPLETE and SUCCEEDED. -/
theorem persist_path_decision :
    (∀ (multiChatEnabled : Bool) (n : Nat),
      choosePersistPath multiChatEnabled n = .singleBatch ↔
        multiChatEnabled = false ∧ totalWritesNeeded n ≤ singleBatchWriteCeiling) ∧
    choosePersistPath false 500 = .twoPhase ∧
    (∀ n, choosePersistPath true n = .twoPhase) ∧
    (∀ n, (twoPhaseTrace n).getD 1 initialTwoPhaseState =
        createResultWriting n initialTwoPhaseState ∧
      (createResultWriting n initialTwoPhaseState).writeState = some .WRITING ∧
      (createResultWriting n initialTwoPhaseState).expectedRuleCount = some n ∧
      ((twoPhaseTrace n).getLastD initialTwoPhaseState).writeState = some .COMPLETE ∧
      ((twoPhaseTrace n).getLastD initialTwoPhaseState).runStatus = .SUCCEEDED) := by
  refine ⟨?_, by decide, ?_, ?_⟩
  · intro mc n
    unfold choosePersistPath
    split
    · rename_i hcond
      simp only [Bool.and_eq_true, Bool.not_eq_true', decide_eq_true_eq] at hcond
      simp [hcond.1, hcond.2]
    · rename_i hcond
      simp only [Bool.and_eq_true, Bool.not_eq_true', decide_eq_true_eq, not_and] at hcond
      constructor
      · intro h; cases h
      · rintro ⟨rfl, hle⟩
        push_neg at hcond
        exact absurd hle (by simpa using hcond)
  · intro n
    unfold choosePersistPath
    simp
  · intro n
    rw [twoPhaseTrace_getLastD n]
    refine ⟨rfl, rfl, rfl, rfl, rfl⟩

/-- Witness for C8: with 448 rule documents on a single-chat run the
single batch is chosen. -/
theorem persist_path_decision_witness :
    choosePersistPath false 448 = PersistPath.singleBatch := by
  exact (persist_path_decision.1 false 448).mpr (by decide)

/-- C3 counterexample. A `processQcRun` invocation whose guarding
transaction finds the run already RUNNING (not QUEUED, so the transaction
is a no-op and performs no QUEUED-to-RUNNING transition) is not a no-op
overall: the post-guard re-read observes RUNNING, so the invocation
proceeds to evaluate and write result records. -/
theorem begin_processing_not_noop_when_running :
    beginProcessingTx .RUNNING = (.RUNNING, false) ∧
    (processQcRunInvocation .RUNNING).2.transitionedToRunning = false ∧
    (processQcRunInvocation .RUNNING).2.evaluated = true ∧
    (processQcRunInvocation .RUNNING).2.wroteResultRecords = true := by
  decide

/-- C3 as amended. Only a QUEUED run is ever promoted to RUNNING, so two
invocations perform exactly one QUEUED-to-RUNNING transition; and a second
invocation that observes the run in any state other than QUEUED and
RUNNING (CANCELLED, SUCCEEDED or FAILED — in particular any sequential
re-invocation after the first completed, and a cancelled run) is a no-op
that performs no evaluation and writes nothing. A duplicate invocation
that observes the run still RUNNING, however, proceeds to evaluate. -/
theorem begin_processing_idempotent_amended :
    processQcRunInvocation .QUEUED =
      (.SUCCEEDED, { transitionedToRunning := true, evaluated := true, wroteResultRecords := true }) ∧
    (∀ st : RunStatus, st ≠ .QUEUED → st ≠ .RUNNING →
      processQcRunInvocation st =
        (st, { transitionedToRunning := false, evaluated := false, wroteResultRecords := false })) ∧
    (∀ st : RunStatus, (processQcRunInvocation st).2.transitionedToRunning = true → st = .QUEUED) := by
  decide

/-- Witness for the amended C3: an invocation on a CANCELLED run is a
complete no-op. -/
theorem begin_processing_idempotent_amended_witness :
    processQcRunInvocation .CANCELLED =
      (.CANCELLED, { transitionedToRunning := false, evaluated := false, wroteResultRecords := false }) := by
  exact begin_processing_idempotent_amended.2.1 .CANCELLED (by decide) (by decide)

/-- C9. `runQc` is deterministic: two calls on structurally equal
arguments (input, rules, executedAtIso, aiSignals, options) under the same
host environment return structurally identical results; the engine reads
no ambient state beyond its arguments and the fixed environment
functions. -/
theorem runQc_deterministic (env : JsEnv) (r1 r2 : RunQcRequest)
    (hin : r1.input = r2.input) (hrules : r1.rules = r2.rules)
    (hts : r1.executedAtIso = r2.executedAtIso) (hai : r1.aiSignals = r2.aiSignals)
    (hopts : r1.options = r2.options) :
    runQc env r1 = runQc env r2 := by
  cases r1
  cases r2
  simp only at hin hrules hts hai hopts
  subst hin hrules hts hai hopts
  rfl

/-- Witness for C9 at a concrete request (one required-phrase rule over a
text input): two separately constructed but equal requests evaluate
identically. -/
theorem runQc_deterministic_witness :
    runQc defaultJsEnv
      { input := .text "Your Order ID is 55"
        rules := [{ ruleId := "r1", version := 1, name := "phrase"
                    params := .textRequiredPhrase { phrase := "Order ID" } }]
        executedAtIso := "2024-01-01T00:00:00Z" } =
    runQc defaultJsEnv
      { input := .text "Your Order ID is 55"
        rules := [{ ruleId := "r1", version := 1, name := "phrase"
                    params := .textRequiredPhrase { phrase := "Order ID" } }]
        executedAtIso := "2024-01-01T00:00:00Z" } := by
  exact runQc_deterministic defaultJsEnv _ _ rfl rfl rfl rfl rfl

/-- Structured inversion of a successful `runQc` call: the rule results
are the per-rule evaluations, the summary fields are the aggregation
functions applied to them, and the effective threshold passed its
validation. -/
theorem runQc_ok_inv {env : JsEnv} {req : RunQcRequest} {res : QcRunResult}
    (h : runQc env req = .ok res) :
    res.ruleResults = runQcResults env req ∧
    res.summary.overallOutcome =
      overallOutcomeOf (blockerFlagOf req) (passThresholdOf req) (runQcResults env req) ∧
    res.summary.overallScore = max 0 (min 1 (weightedScoreOf (runQcResults env req))) ∧
    0 ≤ passThresholdOf req ∧ passThresholdOf req ≤ 1 := by
  unfold runQc at h
  split at h
  · simp at h
  · rename_i hcond
    push_neg at hcond
    injection h with h
    subst h
    exact ⟨rfl, rfl, rfl, hcond.1, hcond.2⟩

/-- C4. With blockerFailureForcesFail effectively enabled (explicitly, or
by its default when the options are absent), any rule result with outcome
FAIL and severity BLOCKER forces the run summary to overallOutcome FAIL,
regardless of the weighted score and threshold. -/
theorem blocker_fail_forces_overall_fail (env : JsEnv) (req : RunQcRequest)
    (res : QcRunResult) (hok : runQc env req = .ok res)
    (hflag : blockerFlagOf req = true)
    (hblocker : ∃ r ∈ res.ruleResults, r.outcome = .FAIL ∧ r.severity = .BLOCKER) :
    res.summary.overallOutcome = .FAIL := by
  obtain ⟨hres, hout, -, -, -⟩ := runQc_ok_inv hok
  have hhas : hasBlockerFailOf (blockerFlagOf req) (runQcResults env req) = true := by
    unfold hasBlockerFailOf
    rw [hflag, Bool.true_and, List.any_eq_true]
    obtain ⟨r, hrmem, hro, hrs⟩ := hblocker
    rw [hres] at hrmem
    exact ⟨r, hrmem, by simp [hro, hrs]⟩
  rw [hout]
  unfold overallOutcomeOf
  rw [hhas]
  simp

/-- Concrete request of spec Scenario B: one BLOCKER keyword-blacklist
rule against a text containing the keyword. -/
def blockerScenarioRequest : RunQcRequest :=
  { input := .text "I want a refund"
    rules := [{ ruleId := "no-refund", version := 1, severity := .BLOCKER, name := "no refund"
                params := .textKeywordBlacklist { keywords := ["refund"] } }]
    executedAtIso := "2024-01-01T00:00:00Z" }

/-- Witness for C4 (spec Scenario B): a BLOCKER keyword-blacklist rule
failing on a text containing the keyword makes the whole run FAIL. -/
theorem blocker_fail_forces_overall_fail_witness :
    ∃ res, runQc defaultJsEnv blockerScenarioRequest = .ok res ∧
      res.summary.overallOutcome = .FAIL := by
  refine ⟨_, rfl, ?_⟩
  exact blocker_fail_forces_overall_fail defaultJsEnv blockerScenarioRequest _ rfl rfl
    ⟨_, List.Mem.head _, rfl, rfl⟩

/-- C5. When every rule result of a successful `runQc` call has outcome
SKIP (for example because every rule is disabled), the filtered non-SKIP
result list is empty, its total weight is 0, and the summary reports
overallScore 1 and overallOutcome PASS: SKIP results are excluded from the
weighted average rather than averaged in. -/
theorem all_skip_vacuous_pass (env : JsEnv) (req : RunQcRequest)
    (res : QcRunResult) (hok : runQc env req = .ok res)
    (hall : ∀ r ∈ res.ruleResults, r.outcome = .SKIP) :
    res.summary.overallScore = 1 ∧ res.summary.overallOutcome = .PASS := by
  obtain ⟨hres, hout, hscore, -, hle⟩ := runQc_ok_inv hok
  have henab : enabledResultsOf (runQcResults env req) = [] := by
    unfold enabledResultsOf
    rw [List.filter_eq_nil_iff]
    intro r hr
    have := hall r (by rw [hres]; exact hr)
    simp [this]
  have hwq : weightedScoreOf (runQcResults env req) = 1 := by
    unfold weightedScoreOf totalWeightOf
    rw [henab]
    simp
  have hblock : hasBlockerFailOf (blockerFlagOf req) (runQcResults env req) = false := by
    unfold hasBlockerFailOf
    have hany : (runQcResults env req).any
        (fun r => decide (r.outcome = .FAIL) && decide (r.severity = .BLOCKER)) = false := by
      rw [List.any_eq_false]
      intro r hr
      have := hall r (by rw [hres]; exact hr)
      simp [this]
    rw [hany, Bool.and_false]
  constructor
  · rw [hscore, hwq]
    simp
  · rw [hout]
    unfold overallOutcomeOf
    rw [hblock, hwq]
    have hnlt : ¬(1 : ℚ) < passThresholdOf req := not_lt.mpr hle
    simp [hnlt]

/-- Concrete request with a single disabled rule. -/
def allSkipRequest : RunQcRequest :=
  { input := .text "abc"
    rules := [{ ruleId := "off", version := 1, enabled := false, name := "off"
                params := .textRequiredPhrase { phrase := "x" } }]
    executedAtIso := "2024-01-01T00:00:00Z" }

/-- Witness for C5: a single disabled rule yields an all-SKIP run with
overallScore 1 and overallOutcome PASS. -/
theorem all_skip_vacuous_pass_witness :
    ∃ res, runQc defaultJsEnv allSkipRequest = .ok res ∧
      res.summary.overallScore = 1 ∧ res.summary.overallOutcome = .PASS := by
  refine ⟨_, rfl, ?_⟩
  refine all_skip_vacuous_pass defaultJsEnv allSkipRequest _ rfl ?_
  intro r hr
  cases hr with
  | head => rfl
  | tail _ h => cases h


/-- The input kind a rule's evaluator demands through `assertKind`:
record for NUMERIC_RANGE, REQUIRED_FIELD and SLA_TIME_DIFFERENCE, table
for the EXCEL rules, audio for AUDIO_DURATION_LIMIT; the text rules and
the AI-signal rules assert no kind (text rules skip instead, AI rules look
only at the signals). -/
def declaredInputKind (r : QcRuleDefinition) : Option InputKind :=
  match r.params with
  | .numericRange _ => some .record
  | .requiredField _ => some .record
  | .slaTimeDifference _ => some .record
  | .excelAllCaps _ => some .table
  | .excelRequiredColumns _ => some .table
  | .audioDurationLimit _ => some .audio
  | _ => none

/-- On any non-record input, `assertRecord` throws the kind-mismatch
message. -/
theorem assertRecord_of_ne (input : QcNormalizedInput) (rule : QcRuleDefinition)
    (h : input.kind ≠ .record) :
    assertRecord input rule = .error (kindMismatchMessage rule .record input.kind) := by
  cases input
  case record r => exact absurd rfl h
  all_goals rfl

/-- On any non-table input, `assertTable` throws the kind-mismatch
message. -/
theorem assertTable_of_ne (input : QcNormalizedInput) (rule : QcRuleDefinition)
    (h : input.kind ≠ .table) :
    assertTable input rule = .error (kindMismatchMessage rule .table input.kind) := by
  cases input
  case table c r => exact absurd rfl h
  all_goals rfl

/-- On any non-audio input, `assertAudio` throws the kind-mismatch
message. -/
theorem assertAudio_of_ne (input : QcNormalizedInput) (rule : QcRuleDefinition)
    (h : input.kind ≠ .audio) :
    assertAudio input rule = .error (kindMismatchMessage rule .audio input.kind) := by
  cases input
  case audio d f => exact absurd rfl h
  all_goals rfl

/-- An enabled rule with a declared input expectation, evaluated against an
input of a different kind, yields exactly the caught-exception ERROR
result carrying the `assertKind` message. -/
theorem evaluateRule_kind_mismatch (env : JsEnv) (ctx : QcExecutionContext)
    (rule : QcRuleDefinition) (k : InputKind)
    (hd : declaredInputKind rule = some k) (hen : rule.enabled = true)
    (hne : ctx.input.kind ≠ k) :
    evaluateRule env ctx rule = errorResult rule (kindMismatchMessage rule k ctx.input.kind) := by
  obtain ⟨rid, ver, en, sev, w, nm, desc, tags, params⟩ := rule
  have hen2 : en = true := hen
  subst hen2
  cases params <;> simp only [declaredInputKind] at hd <;>
    try exact Option.noConfusion hd
  case numericRange p =>
    injection hd with hd; subst hd
    have hdisp : evaluateRuleDispatch env ctx ⟨rid, ver, true, sev, w, nm, desc, tags, .numericRange p⟩ =
        .error (kindMismatchMessage ⟨rid, ver, true, sev, w, nm, desc, tags, .numericRange p⟩ .record ctx.input.kind) := by
      simp [evaluateRuleDispatch, evalNumericRange, assertRecord_of_ne ctx.input _ hne,
        Bind.bind, Except.bind]
    simp [evaluateRule, hdisp]
  case requiredField p =>
    injection hd with hd; subst hd
    have hdisp : evaluateRuleDispatch env ctx ⟨rid, ver, true, sev, w, nm, desc, tags, .requiredField p⟩ =
        .error (kindMismatchMessage ⟨rid, ver, true, sev, w, nm, desc, tags, .requiredField p⟩ .record ctx.input.kind) := by
      simp [evaluateRuleDispatch, evalRequiredField, assertRecord_of_ne ctx.input _ hne,
        Bind.bind, Except.bind]
    simp [evaluateRule, hdisp]
  case slaTimeDifference p =>
    injection hd with hd; subst hd
    have hdisp : evaluateRuleDispatch env ctx ⟨rid, ver, true, sev, w, nm, desc, tags, .slaTimeDifference p⟩ =
        .error (kindMismatchMessage ⟨rid, ver, true, sev, w, nm, desc, tags, .slaTimeDifference p⟩ .record ctx.input.kind) := by
      simp [evaluateRuleDispatch, evalSlaTimeDifference, assertRecord_of_ne ctx.input _ hne,
        Bind.bind, Except.bind]
    simp [evaluateRule, hdisp]
  case excelAllCaps p =>
    injection hd with hd; subst hd
    have hdisp : evaluateRuleDispatch env ctx ⟨rid, ver, true, sev, w, nm, desc, tags, .excelAllCaps p⟩ =
        .error (kindMismatchMessage ⟨rid, ver, true, sev, w, nm, desc, tags, .excelAllCaps p⟩ .table ctx.input.kind) := by
      simp [evaluateRuleDispatch, evalExcelAllCaps, assertTable_of_ne ctx.input _ hne,
        Bind.bind, Except.bind]
    simp [evaluateRule, hdisp]
  case excelRequiredColumns p =>
    injection hd with hd; subst hd
    have hdisp : evaluateRuleDispatch env ctx ⟨rid, ver, true, sev, w, nm, desc, tags, .excelRequiredColumns p⟩ =
        .error (kindMismatchMessage ⟨rid, ver, true, sev, w, nm, desc, tags, .excelRequiredColumns p⟩ .table ctx.input.kind) := by
      simp [evaluateRuleDispatch, evalExcelRequiredColumns, assertTable_of_ne ctx.input _ hne,
        Bind.bind, Except.bind]
    simp [evaluateRule, hdisp]
  case audioDurationLimit p =>
    injection hd with hd; subst hd
    have hdisp : evaluateRuleDispatch env ctx ⟨rid, ver, true, sev, w, nm, desc, tags, .audioDurationLimit p⟩ =
        .error (kindMismatchMessage ⟨rid, ver, true, sev, w, nm, desc, tags, .audioDurationLimit p⟩ .audio ctx.input.kind) := by
      simp [evaluateRuleDispatch, evalAudioDurationLimit, assertAudio_of_ne ctx.input _ hne,
        Bind.bind, Except.bind]
    simp [evaluateRule, hdisp]

/-- C2. A successful `runQc` call evaluates every rule (one result per
rule, so a kind mismatch never makes `runQc` throw or stop early), and
every enabled rule whose declared input expectation differs from the
actual input kind gets outcome ERROR with score 0 and a customer-safe
error object carrying the caught `assertKind` message instead of a raw
exception. -/
theorem kind_mismatch_yields_rule_error (env : JsEnv) (req : RunQcRequest)
    (res : QcRunResult) (hok : runQc env req = .ok res) :
    res.ruleResults.length = req.rules.length ∧
    ∀ i (hi : i < req.rules.length) (k : InputKind),
      declaredInputKind (req.rules.get ⟨i, hi⟩) = some k →
      (req.rules.get ⟨i, hi⟩).enabled = true →
      req.input.kind ≠ k →
      ∃ hj : i < res.ruleResults.length,
        (res.ruleResults.get ⟨i, hj⟩).outcome = .ERROR ∧
        (res.ruleResults.get ⟨i, hj⟩).score = 0 ∧
        (res.ruleResults.get ⟨i, hj⟩).error =
          some { code := "RULE_EVALUATION_ERROR"
                 message := kindMismatchMessage (req.rules.get ⟨i, hi⟩) k req.input.kind } := by
  obtain ⟨summary, ruleResults⟩ := res
  obtain ⟨hres, -, -, -, -⟩ := runQc_ok_inv hok
  simp only at hres
  subst hres
  have hlen : (runQcResults env req).length = req.rules.length := List.length_map _ _
  refine ⟨hlen, ?_⟩
  intro i hi k hd hen hne
  refine ⟨by rw [hlen]; exact hi, ?_⟩
  have hget : (runQcResults env req).get ⟨i, by rw [hlen]; exact hi⟩ =
      evaluateRule env (runQcContext req) (req.rules.get ⟨i, hi⟩) := by
    simp only [runQcResults, List.get_eq_getElem, List.getElem_map]
  rw [hget, evaluateRule_kind_mismatch env (runQcContext req) _ k hd hen hne]
  exact ⟨rfl, rfl, rfl⟩

/-- Concrete request with a record-expecting NUMERIC_RANGE rule evaluated
against a text input. -/
def mismatchRequest : RunQcRequest :=
  { input := .text "hello"
    rules := [{ ruleId := "range", version := 1, name := "range"
                params := .numericRange { fieldPath := ["v"] } }]
    executedAtIso := "2024-01-01T00:00:00Z" }

/-- Witness for C2: the record-expecting rule against the text input comes
back as an ERROR result with score 0, while `runQc` still returns
normally. -/
theorem kind_mismatch_yields_rule_error_witness :
    ∃ res, runQc defaultJsEnv mismatchRequest = .ok res ∧
      ∃ hj : 0 < res.ruleResults.length,
        (res.ruleResults.get ⟨0, hj⟩).outcome = .ERROR ∧
        (res.ruleResults.get ⟨0, hj⟩).score = 0 := by
  refine ⟨_, rfl, ?_⟩
  have h := (kind_mismatch_yields_rule_error defaultJsEnv mismatchRequest _ rfl).2 0 (by decide)
    .record rfl rfl (by decide)
  obtain ⟨hj, h1, h2, -⟩ := h
  exact ⟨hj, h1, h2⟩


/-- Shape every engine rule result satisfies: it carries its rule's id,
and its score is binary, 1 for PASS and SKIP, 0 for FAIL and ERROR. -/
def engineShape (rule : QcRuleDefinition) (r : QcRuleResult) : Prop :=
  r.ruleId = rule.ruleId ∧
  ((r.outcome = .PASS ∨ r.outcome = .SKIP) → r.score = 1) ∧
  ((r.outcome = .FAIL ∨ r.outcome = .ERROR) → r.score = 0)

/-- The `pass` constructor is engine-shaped. -/
theorem engineShape_pass (rule : QcRuleDefinition) (ev : List Evidence) :
    engineShape rule (pass rule ev) := by
  simp [engineShape, pass, resultBase]

/-- The `fail` constructor is engine-shaped. -/
theorem engineShape_fail (rule : QcRuleDefinition) (ev : List Evidence) :
    engineShape rule (fail rule ev) := by
  simp [engineShape, fail, resultBase]

/-- The `skip` constructor is engine-shaped. -/
theorem engineShape_skip (rule : QcRuleDefinition) (reason : String) :
    engineShape rule (skip rule reason) := by
  simp [engineShape, skip, resultBase]

/-- The `errorResult` constructor is engine-shaped. -/
theorem engineShape_errorResult (rule : QcRuleDefinition) (message : String)
    (ev : List Evidence) : engineShape rule (errorResult rule message ev) := by
  simp [engineShape, errorResult, resultBase]

/-- Every evaluator returns its results through the four shape-preserving
constructors, so every successful dispatch is engine-shaped. -/
theorem engineShape_dispatch {env : JsEnv} {ctx : QcExecutionContext}
    {rule : QcRuleDefinition} {r : QcRuleResult}
    (h : evaluateRuleDispatch env ctx rule = .ok r) : engineShape rule r := by
  cases hp : rule.params <;>
    (unfold evaluateRuleDispatch at h; rw [hp] at h) <;>
    simp only [evalTextRegex, evalTextKeywordBlacklist, evalTextRequiredPhrase,
      evalNumericRange, evalRequiredField, evalExcelRequiredColumns, evalExcelAllCaps,
      evalAudioDurationLimit, evalSlaTimeDifference, evalToneClassification,
      evalImpliedAbuseDetection, Bind.bind, Except.bind] at h <;>
    (repeat' split at h) <;>
    (try injection h with h) <;>
    first
      | (subst h;
         first
           | exact engineShape_pass _ _
           | exact engineShape_fail _ _
           | exact engineShape_skip _ _)
      | simp at h

/-- Every evaluated rule result is engine-shaped: disabled rules SKIP,
successful dispatches go through the four constructors, and thrown
messages become ERROR results. -/
theorem engineShape_evaluateRule (env : JsEnv) (ctx : QcExecutionContext)
    (rule : QcRuleDefinition) : engineShape rule (evaluateRule env ctx rule) := by
  unfold evaluateRule
  split
  · exact engineShape_skip _ _
  · split
    · rename_i r hr
      exact engineShape_dispatch hr
    · exact engineShape_errorResult _ _ _

/-- C10. A successful `runQc` call returns exactly one rule result per
input rule, in input order with the matching ruleId at each index, and
every per-rule score is binary: PASS and SKIP results score 1, FAIL and
ERROR results score 0 — no intermediate score ever occurs. -/
theorem runQc_shape_invariant (env : JsEnv) (req : RunQcRequest)
    (res : QcRunResult) (hok : runQc env req = .ok res) :
    res.ruleResults.length = req.rules.length ∧
    (∀ i (h1 : i < res.ruleResults.length) (h2 : i < req.rules.length),
      (res.ruleResults.get ⟨i, h1⟩).ruleId = (req.rules.get ⟨i, h2⟩).ruleId) ∧
    (∀ r ∈ res.ruleResults,
      ((r.outcome = .PASS ∨ r.outcome = .SKIP) → r.score = 1) ∧
      ((r.outcome = .FAIL ∨ r.outcome = .ERROR) → r.score = 0)) := by
  obtain ⟨summary, ruleResults⟩ := res
  obtain ⟨hres, -, -, -, -⟩ := runQc_ok_inv hok
  simp only at hres
  subst hres
  refine ⟨List.length_map _ _, ?_, ?_⟩
  · intro i h1 h2
    have hget : (runQcResults env req).get ⟨i, h1⟩ =
        evaluateRule env (runQcContext req) (req.rules.get ⟨i, h2⟩) := by
      simp only [runQcResults, List.get_eq_getElem, List.getElem_map]
    rw [hget]
    exact (engineShape_evaluateRule env (runQcContext req) _).1
  · intro r hr
    obtain ⟨rule, -, rfl⟩ := List.mem_map.mp hr
    exact ⟨(engineShape_evaluateRule env (runQcContext req) rule).2.1,
      (engineShape_evaluateRule env (runQcContext req) rule).2.2⟩

/-- Concrete two-rule request: one passing enabled rule and one disabled
rule. -/
def shapeRequest : RunQcRequest :=
  { input := .text "Your Order ID is 55"
    rules := [{ ruleId := "r1", version := 1, name := "phrase"
                params := .textRequiredPhrase { phrase := "Order ID" } },
              { ruleId := "r2", version := 1, enabled := false, name := "off"
                params := .textRequiredPhrase { phrase := "x" } }]
    executedAtIso := "2024-01-01T00:00:00Z" }

/-- Witness for C10 at the two-rule request: two results, with the first
ruleId preserved. -/
theorem runQc_shape_invariant_witness :
    ∃ res, runQc defaultJsEnv shapeRequest = .ok res ∧
      res.ruleResults.length = 2 ∧
      ∃ h1 : 0 < res.ruleResults.length,
        (res.ruleResults.get ⟨0, h1⟩).ruleId = "r1" := by
  refine ⟨_, rfl, ?_⟩
  have h := runQc_shape_invariant defaultJsEnv shapeRequest _ rfl
  refine ⟨h.1, by rw [h.1]; decide, ?_⟩
  exact h.2.1 0 (by rw [h.1]; decide) (by decide)


/-- Every element of `a :: l` is bounded by the max-fold of `l` started at
`a` (the JavaScript `Math.max` of the nonempty list `a :: l`). -/
theorem le_foldl_max {α : Type} [LinearOrder α] :
    ∀ (l : List α) (a x : α), x ∈ a :: l → x ≤ l.foldl max a := by
  intro l
  induction l with
  | nil =>
    intro a x hx
    rw [List.mem_singleton] at hx
    subst hx
    exact le_refl _
  | cons b t ih =>
    intro a x hx
    rw [List.foldl_cons]
    rcases List.mem_cons.mp hx with rfl | hx1
    · exact (le_max_left x b).trans (ih (max x b) (max x b) (List.mem_cons_self _ _))
    · rcases List.mem_cons.mp hx1 with rfl | hx2
      · exact (le_max_right a x).trans (ih (max a x) (max a x) (List.mem_cons_self _ _))
      · exact ih (max a b) x (List.mem_cons.mpr (Or.inr hx2))

/-- The max-fold of a nonempty list is one of its elements. -/
theorem foldl_max_mem {α : Type} [LinearOrder α] :
    ∀ (l : List α) (a : α), l.foldl max a ∈ a :: l := by
  intro l
  induction l with
  | nil => intro a; simp
  | cons b t ih =>
    intro a
    rw [List.foldl_cons]
    rcases List.mem_cons.mp (ih (max a b)) with heq | hmem
    · rcases max_choice a b with h | h <;> rw [heq, h] <;> simp
    · exact List.mem_cons.mpr (Or.inr (List.mem_cons.mpr (Or.inr hmem)))

/-- The min-fold of `l` started at `a` bounds every element of `a :: l`
(the JavaScript `Math.min` of the nonempty list `a :: l`). -/
theorem foldl_min_le {α : Type} [LinearOrder α] :
    ∀ (l : List α) (a x : α), x ∈ a :: l → l.foldl min a ≤ x := by
  intro l
  induction l with
  | nil =>
    intro a x hx
    rw [List.mem_singleton] at hx
    subst hx
    exact le_refl _
  | cons b t ih =>
    intro a x hx
    rw [List.foldl_cons]
    rcases List.mem_cons.mp hx with rfl | hx1
    · exact (ih (min x b) (min x b) (List.mem_cons_self _ _)).trans (min_le_left x b)
    · rcases List.mem_cons.mp hx1 with rfl | hx2
      · exact (ih (min a x) (min a x) (List.mem_cons_self _ _)).trans (min_le_right a x)
      · exact ih (min a b) x (List.mem_cons.mpr (Or.inr hx2))

/-- The min-fold of a nonempty list is one of its elements. -/
theorem foldl_min_mem {α : Type} [LinearOrder α] :
    ∀ (l : List α) (a : α), l.foldl min a ∈ a :: l := by
  intro l
  induction l with
  | nil => intro a; simp
  | cons b t ih =>
    intro a
    rw [List.foldl_cons]
    rcases List.mem_cons.mp (ih (min a b)) with heq | hmem
    · rcases min_choice a b with h | h <;> rw [heq, h] <;> simp
    · exact List.mem_cons.mpr (Or.inr (List.mem_cons.mpr (Or.inr hmem)))

/-- `rankToStatus` inverts `statusRank`. -/
theorem rankToStatus_statusRank (s : RuleStatus) : rankToStatus (statusRank s) = s := by
  cases s <;> rfl

/-- The aggregator emits one combined document per rule index of the first
segment. -/
theorem combineAggregatedRuleDocs_length (hd : ChatSegment × List RuleResultDoc)
    (tl : List (ChatSegment × List RuleResultDoc)) :
    (combineAggregatedRuleDocs (hd :: tl)).length = hd.2.length := by
  simp [combineAggregatedRuleDocs]

/-- The combined document at index `i` has the worst-rank status and the
minimum score over the per-segment entries at that index. -/
theorem combineAggregatedRuleDocs_get (hd : ChatSegment × List RuleResultDoc)
    (tl : List (ChatSegment × List RuleResultDoc)) (i : Nat)
    (hci : i < (combineAggregatedRuleDocs (hd :: tl)).length) :
    ((combineAggregatedRuleDocs (hd :: tl)).get ⟨i, hci⟩).status =
      rankToStatus (listMaxNat
        (((hd :: tl).map (fun x => (x.1, x.2.getD i defaultRuleDoc))).map
          (fun e => statusRank e.2.status))) ∧
    ((combineAggregatedRuleDocs (hd :: tl)).get ⟨i, hci⟩).score =
      listMinQ (((hd :: tl).map (fun x => (x.1, x.2.getD i defaultRuleDoc))).map
        (fun e => e.2.score)) := by
  have hi : i < hd.2.length := by
    rw [combineAggregatedRuleDocs_length] at hci
    exact hci
  constructor <;>
    simp only [combineAggregatedRuleDocs, List.get_eq_getElem, List.getElem_map,
      List.getElem_range]

/-- C6. For per-segment rule-result document lists all sharing the first
segment's rule count, the aggregator's combined document at each rule
index has a status whose rank bounds every contributing segment's status
rank (never better than the worst) and which is attained by some segment,
and a score that is a lower bound of all segment scores and attained by
some segment: the worst-case status and the minimum score. -/
theorem aggregation_pessimism (hd : ChatSegment × List RuleResultDoc)
    (tl : List (ChatSegment × List RuleResultDoc))
    (hlen : ∀ x ∈ hd :: tl, x.2.length = hd.2.length)
    (i : Nat) (hi : i < hd.2.length) :
    (combineAggregatedRuleDocs (hd :: tl)).length = hd.2.length ∧
    ∃ hci : i < (combineAggregatedRuleDocs (hd :: tl)).length,
      (∀ x ∈ hd :: tl, ∃ hx : i < x.2.length,
        statusRank ((x.2).get ⟨i, hx⟩).status ≤
          statusRank (((combineAggregatedRuleDocs (hd :: tl)).get ⟨i, hci⟩).status) ∧
        ((combineAggregatedRuleDocs (hd :: tl)).get ⟨i, hci⟩).score ≤ ((x.2).get ⟨i, hx⟩).score) ∧
      (∃ x ∈ hd :: tl, ∃ hx : i < x.2.length,
        ((x.2).get ⟨i, hx⟩).status = ((combineAggregatedRuleDocs (hd :: tl)).get ⟨i, hci⟩).status) ∧
      (∃ x ∈ hd :: tl, ∃ hx : i < x.2.length,
        ((x.2).get ⟨i, hx⟩).score = ((combineAggregatedRuleDocs (hd :: tl)).get ⟨i, hci⟩).score) := by
  have hL := combineAggregatedRuleDocs_length hd tl
  obtain ⟨hstat, hscore⟩ := combineAggregatedRuleDocs_get hd tl i (by rw [hL]; exact hi)
  refine ⟨hL, ⟨by rw [hL]; exact hi, ?_, ?_, ?_⟩⟩
  · intro x hx
    have hxlen : i < x.2.length := by rw [hlen x hx]; exact hi
    have hgd : x.2.getD i defaultRuleDoc = x.2.get ⟨i, hxlen⟩ := by
      rw [List.getD_eq_getElem _ _ hxlen, List.get_eq_getElem]
    refine ⟨hxlen, ?_, ?_⟩
    · rw [hstat]
      have hmem : statusRank ((x.2.get ⟨i, hxlen⟩).status) ∈
          (((hd :: tl).map (fun y => (y.1, y.2.getD i defaultRuleDoc))).map
            (fun e => statusRank e.2.status)) := by
        refine List.mem_map.mpr ⟨(x.1, x.2.getD i defaultRuleDoc),
          List.mem_map.mpr ⟨x, hx, rfl⟩, ?_⟩
        rw [hgd]
      rcases hq : (((hd :: tl).map (fun y => (y.1, y.2.getD i defaultRuleDoc))).map
          (fun e => statusRank e.2.status)) with _ | ⟨r0, rest⟩
      · rw [hq] at hmem; cases hmem
      · rw [hq] at hmem
        rw [hq]
        have hle := le_foldl_max rest r0 _ hmem
        have hmm : listMaxNat (r0 :: rest) ∈ r0 :: rest := by
          simpa [listMaxNat] using foldl_max_mem rest r0
        have hmm2 : listMaxNat (r0 :: rest) ∈
            (((hd :: tl).map (fun y => (y.1, y.2.getD i defaultRuleDoc))).map
              (fun e => statusRank e.2.status)) := by
          rw [hq]; exact hmm
        obtain ⟨e, -, he⟩ := List.mem_map.mp hmm2
        have hinv : statusRank (rankToStatus (listMaxNat (r0 :: rest))) =
            listMaxNat (r0 :: rest) := by
          rw [← he, rankToStatus_statusRank]
        rw [hinv]
        simpa [listMaxNat] using hle
    · rw [hscore]
      have hmem : ((x.2.get ⟨i, hxlen⟩).score) ∈
          (((hd :: tl).map (fun y => (y.1, y.2.getD i defaultRuleDoc))).map
            (fun e => e.2.score)) := by
        refine List.mem_map.mpr ⟨(x.1, x.2.getD i defaultRuleDoc),
          List.mem_map.mpr ⟨x, hx, rfl⟩, ?_⟩
        rw [hgd]
      rcases hq : (((hd :: tl).map (fun y => (y.1, y.2.getD i defaultRuleDoc))).map
          (fun e => e.2.score)) with _ | ⟨s0, rest⟩
      · rw [hq] at hmem; cases hmem
      · rw [hq] at hmem
        rw [hq]
        simpa [listMinQ] using foldl_min_le rest s0 _ hmem
  · rw [hstat]
    rcases hq : (((hd :: tl).map (fun y => (y.1, y.2.getD i defaultRuleDoc))).map
        (fun e => statusRank e.2.status)) with _ | ⟨r0, rest⟩
    · simp at hq
    · have hmm : listMaxNat (r0 :: rest) ∈
          (((hd :: tl).map (fun y => (y.1, y.2.getD i defaultRuleDoc))).map
            (fun e => statusRank e.2.status)) := by
        rw [hq]
        simpa [listMaxNat] using foldl_max_mem rest r0
      obtain ⟨e, hemem, he⟩ := List.mem_map.mp hmm
      obtain ⟨x, hxmem, hxe⟩ := List.mem_map.mp hemem
      have hxlen : i < x.2.length := by rw [hlen x hxmem]; exact hi
      have hgd : x.2.getD i defaultRuleDoc = x.2.get ⟨i, hxlen⟩ := by
        rw [List.getD_eq_getElem _ _ hxlen, List.get_eq_getElem]
      refine ⟨x, hxmem, hxlen, ?_⟩
      rw [hq, ← he, ← hxe, rankToStatus_statusRank]
      rw [hgd]
  · rw [hscore]
    rcases hq : (((hd :: tl).map (fun y => (y.1, y.2.getD i defaultRuleDoc))).map
        (fun e => e.2.score)) with _ | ⟨s0, rest⟩
    · simp at hq
    · have hmm : listMinQ (s0 :: rest) ∈
          (((hd :: tl).map (fun y => (y.1, y.2.getD i defaultRuleDoc))).map
            (fun e => e.2.score)) := by
        rw [hq]
        simpa [listMinQ] using foldl_min_mem rest s0
      obtain ⟨e, hemem, he⟩ := List.mem_map.mp hmm
      obtain ⟨x, hxmem, hxe⟩ := List.mem_map.mp hemem
      have hxlen : i < x.2.length := by rw [hlen x hxmem]; exact hi
      have hgd : x.2.getD i defaultRuleDoc = x.2.get ⟨i, hxlen⟩ := by
        rw [List.getD_eq_getElem _ _ hxlen, List.get_eq_getElem]
      refine ⟨x, hxmem, hxlen, ?_⟩
      rw [hq, ← he, ← hxe]
      rw [hgd]


/-- Segment A of spec Scenario C (one 60-character line). -/
def scenarioLine : String := "x123456789y123456789z123456789a123456789b123456789c123456789"

/-- The spec Scenario C transcript: two chat-id headers, each followed by
two 60-character lines (each segment rebuilds to 132 characters, above the
120-character minimum). -/
def chatScenarioText : String :=
  "Chat ID: 1\n" ++ scenarioLine ++ "\n" ++ scenarioLine ++ "\n" ++
  "Chat ID: 2\n" ++ scenarioLine ++ "\n" ++ scenarioLine

/-- The trimmed, newline-normalized transcript the splitter works on. -/
def normalizedTranscript (t : String) : String :=
  jsTrim (⟨normalizeNewlinesChars t.data⟩ : String)

/-- The line list the splitter scans. -/
def transcriptLines (t : String) : List String :=
  splitIntoLines (normalizedTranscript t)

/-- The second component of an enumerated pair is a member of the original
list. -/
theorem snd_mem_of_mem_enum {α : Type} {l : List α} {p : Nat × α} (hp : p ∈ l.enum) :
    p.2 ∈ l := by
  have h := List.mem_enum_iff_getElem?.mp hp
  exact List.getElem?_mem h

/-- A segment accepted by `filterNonTrivialSegments` rebuilds to at least
`minChars` characters. -/
theorem mem_filterNonTrivial {lines : List String} {segs : List SegmentRange}
    {q : SegmentRange} (hq : q ∈ filterNonTrivialSegments lines segs) :
    (rebuildFromLines lines q.start q.stop).length ≥ minChars := by
  unfold filterNonTrivialSegments at hq
  exact of_decide_eq_true (List.mem_filter.mp hq).2

/-- An accepted chat-id stage result is header-anchored: strategy CHAT_ID,
at least two chats, each rebuilt from a non-trivial segment. -/
theorem chatIdAttempt_accepts {lines : List String} {r : ChatSplitResult}
    (h : chatIdAttempt lines = some r) :
    r.strategy = .CHAT_ID ∧ r.chats.length ≥ 2 ∧ ∀ c ∈ r.chats, c.text.length ≥ minChars := by
  simp only [chatIdAttempt] at h
  split at h
  · split at h
    · rename_i husable
      injection h with h
      subst h
      refine ⟨rfl, ?_, ?_⟩
      · simpa [List.enum_length] using husable
      · intro c hc
        obtain ⟨q, hq, rfl⟩ := List.mem_map.mp hc
        exact mem_filterNonTrivial (snd_mem_of_mem_enum hq)
    · exact Option.noConfusion h
  · exact Option.noConfusion h

/-- An accepted separators stage result: strategy SEPARATORS, at least two
chats, each rebuilt from a non-trivial segment. -/
theorem separatorsAttempt_accepts {lines : List String} {r : ChatSplitResult}
    (h : separatorsAttempt lines = some r) :
    r.strategy = .SEPARATORS ∧ r.chats.length ≥ 2 ∧ ∀ c ∈ r.chats, c.text.length ≥ minChars := by
  simp only [separatorsAttempt] at h
  split at h
  · split at h
    · rename_i husable
      injection h with h
      subst h
      refine ⟨rfl, ?_, ?_⟩
      · simpa [List.enum_length] using husable
      · intro c hc
        obtain ⟨q, hq, rfl⟩ := List.mem_map.mp hc
        exact mem_filterNonTrivial (snd_mem_of_mem_enum hq)
    · exact Option.noConfusion h
  · exact Option.noConfusion h

/-- An accepted speaker-blocks stage result: strategy SPEAKER_BLOCKS, at
least two chats, each rebuilt from a non-trivial segment. -/
theorem speakerBlocksAttempt_accepts {lines : List String} {r : ChatSplitResult}
    (h : speakerBlocksAttempt lines = some r) :
    r.strategy = .SPEAKER_BLOCKS ∧ r.chats.length ≥ 2 ∧
      ∀ c ∈ r.chats, c.text.length ≥ minChars := by
  simp only [speakerBlocksAttempt] at h
  split at h
  · split at h
    · rename_i husable
      injection h with h
      subst h
      refine ⟨rfl, ?_, ?_⟩
      · simpa [List.enum_length] using husable
      · intro c hc
        obtain ⟨q, hq, rfl⟩ := List.mem_map.mp hc
        exact mem_filterNonTrivial (snd_mem_of_mem_enum hq)
    · exact Option.noConfusion h
  · exact Option.noConfusion h

/-- A nonempty transcript whose chat-id stage accepts is split by that
stage. -/
theorem split_uses_chatId {t : String} {r : ChatSplitResult}
    (hne : (normalizedTranscript t).length ≠ 0)
    (h : chatIdAttempt (transcriptLines t) = some r) :
    splitTranscriptIntoChats t = r := by
  simp only [normalizedTranscript, transcriptLines] at hne h
  simp only [splitTranscriptIntoChats]
  rw [if_neg hne, h]

/-- A nonempty transcript rejected by the chat-id stage but accepted by the
separators stage is split by the separators stage. -/
theorem split_uses_separators {t : String} {r : ChatSplitResult}
    (hne : (normalizedTranscript t).length ≠ 0)
    (h1 : chatIdAttempt (transcriptLines t) = none)
    (h2 : separatorsAttempt (transcriptLines t) = some r) :
    splitTranscriptIntoChats t = r := by
  simp only [normalizedTranscript, transcriptLines] at hne h1 h2
  simp only [splitTranscriptIntoChats]
  rw [if_neg hne, h1, h2]

/-- A nonempty transcript rejected by the chat-id and separators stages but
accepted by the speaker-blocks stage is split by the speaker-blocks
stage. -/
theorem split_uses_speakerBlocks {t : String} {r : ChatSplitResult}
    (hne : (normalizedTranscript t).length ≠ 0)
    (h1 : chatIdAttempt (transcriptLines t) = none)
    (h2 : separatorsAttempt (transcriptLines t) = none)
    (h3 : speakerBlocksAttempt (transcriptLines t) = some r) :
    splitTranscriptIntoChats t = r := by
  simp only [normalizedTranscript, transcriptLines] at hne h1 h2 h3
  simp only [splitTranscriptIntoChats]
  rw [if_neg hne, h1, h2, h3]

/-- A nonempty transcript rejected by every stage falls back to a single
chat covering the whole normalized text, with the fallback warning. -/
theorem split_fallback {t : String}
    (hne : (normalizedTranscript t).length ≠ 0)
    (h1 : chatIdAttempt (transcriptLines t) = none)
    (h2 : separatorsAttempt (transcriptLines t) = none)
    (h3 : speakerBlocksAttempt (transcriptLines t) = none) :
    splitTranscriptIntoChats t =
      { strategy := .SINGLE, warning := some singleFallbackWarning
        chats := [{ index := 0, title := "Chat 1", text := normalizedTranscript t }] } := by
  simp only [normalizedTranscript, transcriptLines] at hne h1 h2 h3 ⊢
  simp only [splitTranscriptIntoChats]
  rw [if_neg hne, h1, h2, h3]

/-- An empty (or all-whitespace) transcript yields the single empty chat
with its own warning. -/
theorem split_empty {t : String} (hempty : (normalizedTranscript t).length = 0) :
    splitTranscriptIntoChats t =
      { strategy := .SINGLE, warning := some "No text found to split."
        chats := [{ index := 0, title := "Chat 1", text := "" }] } ∧
    normalizedTranscript t = "" := by
  have hnorm : normalizedTranscript t = "" := by
    rcases hq : normalizedTranscript t with ⟨d⟩
    rw [hq] at hempty
    simp only [String.length] at hempty
    rw [List.length_eq_zero] at hempty
    rw [hempty]
  constructor
  · simp only [normalizedTranscript] at hempty
    simp only [splitTranscriptIntoChats]
    rw [if_pos hempty]
  · exact hnorm

set_option maxRecDepth 1000000 in
/-- C7. The splitter tries header-anchored chat-id detection, explicit
separators, then speaker blocks, in that fixed priority order, accepting
the first stage that yields at least two segments rebuilding to at least
120 characters each; on the concrete Scenario C transcript (two `Chat ID`
headers with 132-character bodies) it returns the header-anchored strategy
with exactly two chats carrying ids 1 and 2; and whenever no stage
accepts, it returns strategy SINGLE with a warning and one chat covering
the whole normalized text — it never fails to return a result. -/
theorem segmentation_priority_and_fallback :
    ((splitTranscriptIntoChats chatScenarioText).strategy = .CHAT_ID ∧
     (splitTranscriptIntoChats chatScenarioText).chats.length = 2 ∧
     (splitTranscriptIntoChats chatScenarioText).chats.map (fun c => c.chatId) =
       [some "1", some "2"] ∧
     ∀ c ∈ (splitTranscriptIntoChats chatScenarioText).chats, c.text.length ≥ minChars) ∧
    (∀ (lines : List String) (r : ChatSplitResult), chatIdAttempt lines = some r →
      r.strategy = .CHAT_ID ∧ r.chats.length ≥ 2 ∧ ∀ c ∈ r.chats, c.text.length ≥ minChars) ∧
    (∀ t : String, (normalizedTranscript t).length ≠ 0 →
      (∀ r, chatIdAttempt (transcriptLines t) = some r → splitTranscriptIntoChats t = r) ∧
      (chatIdAttempt (transcriptLines t) = none →
        ∀ r, separatorsAttempt (transcriptLines t) = some r → splitTranscriptIntoChats t = r) ∧
      (chatIdAttempt (transcriptLines t) = none →
        separatorsAttempt (transcriptLines t) = none →
        ∀ r, speakerBlocksAttempt (transcriptLines t) = some r →
          splitTranscriptIntoChats t = r)) ∧
    (∀ t : String, (splitTranscriptIntoChats t).strategy = .SINGLE →
      (splitTranscriptIntoChats t).warning.isSome = true ∧
      (splitTranscriptIntoChats t).chats =
        [{ index := 0, title := "Chat 1", text := normalizedTranscript t }]) := by
  refine ⟨?_, ?_, ?_, ?_⟩
  · decide
  · intro lines r h
    exact chatIdAttempt_accepts h
  · intro t hne
    exact ⟨fun r h => split_uses_chatId hne h,
      fun h1 r h2 => split_uses_separators hne h1 h2,
      fun h1 h2 r h3 => split_uses_speakerBlocks hne h1 h2 h3⟩
  · intro t hsingle
    by_cases hempty : (normalizedTranscript t).length = 0
    · obtain ⟨hsplit, hnorm⟩ := split_empty hempty
      rw [hsplit, hnorm]
      exact ⟨rfl, rfl⟩
    · rcases hc : chatIdAttempt (transcriptLines t) with _ | r1
      · rcases hs : separatorsAttempt (transcriptLines t) with _ | r2
        · rcases hb : speakerBlocksAttempt (transcriptLines t) with _ | r3
          · rw [split_fallback hempty hc hs hb]
            exact ⟨rfl, rfl⟩
          · rw [split_uses_speakerBlocks hempty hc hs hb] at hsingle
            rw [(speakerBlocksAttempt_accepts hb).1] at hsingle
            cases hsingle
        · rw [split_uses_separators hempty hc hs] at hsingle
          rw [(separatorsAttempt_accepts hs).1] at hsingle
          cases hsingle
      · rw [split_uses_chatId hempty hc] at hsingle
        rw [(chatIdAttempt_accepts hc).1] at hsingle
        cases hsingle


/-- Concrete first segment for the aggregation witness. -/
def witnessSegA : ChatSegment := { index := 0, title := "one", text := "a" }

/-- Concrete second segment for the aggregation witness. -/
def witnessSegB : ChatSegment := { index := 1, title := "two", text := "b" }

/-- Concrete passing rule document for the aggregation witness. -/
def witnessDocPass : RuleResultDoc :=
  { order := 0, ruleId := "r", ruleName := "r", ruleType := .TEXT_REGEX, weight := 1
    severity := .MAJOR, status := .PASS, score := 1, evidence := [] }

/-- Concrete failing rule document for the aggregation witness. -/
def witnessDocFail : RuleResultDoc :=
  { order := 0, ruleId := "r", ruleName := "r", ruleType := .TEXT_REGEX, weight := 1
    severity := .MAJOR, status := .FAIL, score := 0, reason := some "bad", evidence := [] }

/-- Witness for C6 at two one-rule segments (PASS and FAIL): the combined
list has one entry whose status rank bounds the first segment's rank. -/
theorem aggregation_pessimism_witness :
    (combineAggregatedRuleDocs
      [(witnessSegA, [witnessDocPass]), (witnessSegB, [witnessDocFail])]).length = 1 := by
  exact (aggregation_pessimism (witnessSegA, [witnessDocPass])
    [(witnessSegB, [witnessDocFail])] (by decide) 0 (by decide)).1

/-- Witness for C7: a short plain text yields the single-segment fallback
with a warning present. -/
theorem segmentation_priority_and_fallback_witness :
    (splitTranscriptIntoChats "hi").warning.isSome = true := by
  exact (segmentation_priority_and_fallback.2.2.2 "hi" (by decide)).1

end QC
